import Mathlib

/-!
Verification development for the `reflect` trait-inference engine
(`src/trait_inference.rs`, `src/node.rs`, `src/global_data.rs`).

The type grammar (`Type`, `TypeNode`, `Path`, ...) is defined in a source
file that is not part of the four files given (`src/lib.rs` / the type
module), so the grammar below is modelled from the specification, §3
"DATA MODEL": a Type is a node in a recursive grammar with variants
Tuple, StringLiteral (PrimitiveStr), Reference, mutable Reference,
NamedPath (segments, each with optional angle-bracketed generic
arguments), GenericVariable (TypeParam), TraitObjectBound and
InferencePlaceholder (Infer).  The constructor names follow the usage
sites in `src/trait_inference.rs` and `src/node.rs`.

Notes on the embedding:
* Rust's newtype `Type(TypeNode)` is identified with `TypeNode`
  (the wrapper carries no information; the code unwraps `.0` freely).
* `TypeEqualitySetRef(usize)` is identified with `Nat`.
* `HashSet` is modelled as a duplicate-free-by-construction list with
  the same observable membership; `HashMap`/`BTreeMap` are modelled as
  functions into `Option`.
* Panics and `unimplemented!` calls are modelled as `Option.none`
  results.
* `Lifetime(usize)` is identified with `Nat`;
  a reference's `lifetime : Option<Lifetime>` becomes `Option Nat`.
-/

set_option autoImplicit false

namespace Reflect

/-- Generic argument of a path segment, parameterized by the type of
types so that the grammar can be tied recursively.  The specification's
grammar has type arguments and lifetime arguments. -/
inductive GenericArgumentP (T : Type) where
  | type (ty : T)
  | lifetime (l : Nat)
deriving DecidableEq

/-- `GenericArguments` wrapper struct (field `args`). -/
structure GenericArgumentsP (T : Type) where
  args : List (GenericArgumentP T)
deriving DecidableEq

/-- `AngleBracketedGenericArguments` wrapper struct (field `args`). -/
structure AngleBracketedGenericArgumentsP (T : Type) where
  args : GenericArgumentsP T
deriving DecidableEq

/-- Arguments attached to a path segment: none, or an angle-bracketed
list.  (The spec's grammar §3 has "optional generic arguments"; the
parenthesized form does not occur in it and is omitted.) -/
inductive PathArgumentsP (T : Type) where
  | none
  | angleBracketed (args : AngleBracketedGenericArgumentsP T)
deriving DecidableEq

/-- One segment of a named path: an identifier plus its arguments. -/
structure PathSegmentP (T : Type) where
  ident : String
  args : PathArgumentsP T
deriving DecidableEq

/-- A named path: global flag plus ordered segments. -/
structure PathP (T : Type) where
  global : Bool
  path : List (PathSegmentP T)
deriving DecidableEq

/-- A trait bound: a path plus (opaque) higher-ranked lifetimes. -/
structure TraitBoundP (T : Type) where
  lifetimes : List Nat
  path : PathP T
deriving DecidableEq

/-- A bound predicate: a trait bound or a lifetime bound. -/
inductive TypeParamBoundP (T : Type) where
  | trait (b : TraitBoundP T)
  | lifetime (l : Nat)
deriving DecidableEq

/-- The recursive type grammar (spec §3 "Type").  `Infer` is the
inference placeholder, `PrimitiveStr` the string-literal type,
`TypeParam` a generic type variable identified by its counter value. -/
inductive TypeNode where
  | Infer
  | PrimitiveStr
  | Tuple (types : List TypeNode)
  | Reference (lifetime : Option Nat) (inner : TypeNode)
  | ReferenceMut (lifetime : Option Nat) (inner : TypeNode)
  | Path (path : PathP TypeNode)
  | TypeParam (type_param_ref : Nat)
  | TraitObject (bounds : List (TypeParamBoundP TypeNode))

/-- The grammar instantiated at `TypeNode`: named path. -/
abbrev Path := PathP TypeNode

/-- The grammar instantiated at `TypeNode`: path segment. -/
abbrev PathSegment := PathSegmentP TypeNode

/-- The grammar instantiated at `TypeNode`: path arguments. -/
abbrev PathArguments := PathArgumentsP TypeNode

/-- The grammar instantiated at `TypeNode`: generic argument. -/
abbrev GenericArgument := GenericArgumentP TypeNode

/-- The grammar instantiated at `TypeNode`: generic argument list. -/
abbrev GenericArguments := GenericArgumentsP TypeNode

/-- The grammar instantiated at `TypeNode`: angle-bracketed arguments. -/
abbrev AngleBracketedGenericArguments := AngleBracketedGenericArgumentsP TypeNode

/-- The grammar instantiated at `TypeNode`: trait bound. -/
abbrev TraitBound := TraitBoundP TypeNode

/-- The grammar instantiated at `TypeNode`: bound predicate. -/
abbrev TypeParamBound := TypeParamBoundP TypeNode

mutual

/-- Decidable equality on the nested grammar, by structural recursion
(the derive handler does not support nested inductives). -/
def decEqTN : (a b : TypeNode) → Decidable (a = b)
  | a, b => by
    cases a <;> cases b
    all_goals try exact isFalse (fun h => TypeNode.noConfusion h)
    case Infer.Infer => exact isTrue rfl
    case PrimitiveStr.PrimitiveStr => exact isTrue rfl
    case Tuple.Tuple ts1 ts2 =>
      have d1 : Decidable (ts1 = ts2) := decEqTNList ts1 ts2
      exact decidable_of_iff (ts1 = ts2) (by simp)
    case Reference.Reference l1 i1 l2 i2 =>
      have d1 : Decidable (i1 = i2) := decEqTN i1 i2
      exact decidable_of_iff (l1 = l2 ∧ i1 = i2) (by simp)
    case ReferenceMut.ReferenceMut l1 i1 l2 i2 =>
      have d1 : Decidable (i1 = i2) := decEqTN i1 i2
      exact decidable_of_iff (l1 = l2 ∧ i1 = i2) (by simp)
    case Path.Path p1 p2 =>
      have d1 : Decidable (p1 = p2) := decEqPathTN p1 p2
      exact decidable_of_iff (p1 = p2) (by simp)
    case TypeParam.TypeParam r1 r2 =>
      exact decidable_of_iff (r1 = r2) (by simp)
    case TraitObject.TraitObject bs1 bs2 =>
      have d1 : Decidable (bs1 = bs2) := decEqTPBListTN bs1 bs2
      exact decidable_of_iff (bs1 = bs2) (by simp)
  termination_by structural a => a

/-- Decidable equality: lists of types. -/
def decEqTNList : (a b : List TypeNode) → Decidable (a = b)
  | [], [] => isTrue rfl
  | [], _ :: _ => isFalse (fun h => List.noConfusion h)
  | _ :: _, [] => isFalse (fun h => List.noConfusion h)
  | x :: xs, y :: ys => by
    have d1 : Decidable (x = y) := decEqTN x y
    have d2 : Decidable (xs = ys) := decEqTNList xs ys
    exact decidable_of_iff (x = y ∧ xs = ys) (by simp)
  termination_by structural a => a

/-- Decidable equality: paths over types. -/
def decEqPathTN : (a b : PathP TypeNode) → Decidable (a = b)
  | ⟨g1, p1⟩, ⟨g2, p2⟩ => by
    have d1 : Decidable (p1 = p2) := decEqSegListTN p1 p2
    exact decidable_of_iff (g1 = g2 ∧ p1 = p2) (by simp)
  termination_by structural a => a

/-- Decidable equality: segment lists. -/
def decEqSegListTN : (a b : List (PathSegmentP TypeNode)) → Decidable (a = b)
  | [], [] => isTrue rfl
  | [], _ :: _ => isFalse (fun h => List.noConfusion h)
  | _ :: _, [] => isFalse (fun h => List.noConfusion h)
  | x :: xs, y :: ys => by
    have d1 : Decidable (x = y) := decEqSegTN x y
    have d2 : Decidable (xs = ys) := decEqSegListTN xs ys
    exact decidable_of_iff (x = y ∧ xs = ys) (by simp)
  termination_by structural a => a

/-- Decidable equality: path segments. -/
def decEqSegTN : (a b : PathSegmentP TypeNode) → Decidable (a = b)
  | ⟨i1, a1⟩, ⟨i2, a2⟩ => by
    have d1 : Decidable (a1 = a2) := decEqPathArgsTN a1 a2
    exact decidable_of_iff (i1 = i2 ∧ a1 = a2) (by simp)
  termination_by structural a => a

/-- Decidable equality: path arguments. -/
def decEqPathArgsTN : (a b : PathArgumentsP TypeNode) → Decidable (a = b)
  | .none, .none => isTrue rfl
  | .none, .angleBracketed _ => isFalse (fun h => PathArgumentsP.noConfusion h)
  | .angleBracketed _, .none => isFalse (fun h => PathArgumentsP.noConfusion h)
  | .angleBracketed a1, .angleBracketed a2 => by
    have d1 : Decidable (a1 = a2) := decEqABGATN a1 a2
    exact decidable_of_iff (a1 = a2) (by simp)
  termination_by structural a => a

/-- Decidable equality: angle-bracketed argument wrappers. -/
def decEqABGATN : (a b : AngleBracketedGenericArgumentsP TypeNode) → Decidable (a = b)
  | ⟨a1⟩, ⟨a2⟩ => by
    have d1 : Decidable (a1 = a2) := decEqGAsTN a1 a2
    exact decidable_of_iff (a1 = a2) (by simp)
  termination_by structural a => a

/-- Decidable equality: generic-argument wrappers. -/
def decEqGAsTN : (a b : GenericArgumentsP TypeNode) → Decidable (a = b)
  | ⟨a1⟩, ⟨a2⟩ => by
    have d1 : Decidable (a1 = a2) := decEqGAListTN a1 a2
    exact decidable_of_iff (a1 = a2) (by simp)
  termination_by structural a => a

/-- Decidable equality: generic-argument lists. -/
def decEqGAListTN : (a b : List (GenericArgumentP TypeNode)) → Decidable (a = b)
  | [], [] => isTrue rfl
  | [], _ :: _ => isFalse (fun h => List.noConfusion h)
  | _ :: _, [] => isFalse (fun h => List.noConfusion h)
  | x :: xs, y :: ys => by
    have d1 : Decidable (x = y) := decEqGATN x y
    have d2 : Decidable (xs = ys) := decEqGAListTN xs ys
    exact decidable_of_iff (x = y ∧ xs = ys) (by simp)
  termination_by structural a => a

/-- Decidable equality: generic arguments. -/
def decEqGATN : (a b : GenericArgumentP TypeNode) → Decidable (a = b)
  | .type t1, .type t2 => by
    have d1 : Decidable (t1 = t2) := decEqTN t1 t2
    exact decidable_of_iff (t1 = t2) (by simp)
  | .type _, .lifetime _ => isFalse (fun h => GenericArgumentP.noConfusion h)
  | .lifetime _, .type _ => isFalse (fun h => GenericArgumentP.noConfusion h)
  | .lifetime l1, .lifetime l2 => decidable_of_iff (l1 = l2) (by simp)
  termination_by structural a => a

/-- Decidable equality: bound-predicate lists. -/
def decEqTPBListTN : (a b : List (TypeParamBoundP TypeNode)) → Decidable (a = b)
  | [], [] => isTrue rfl
  | [], _ :: _ => isFalse (fun h => List.noConfusion h)
  | _ :: _, [] => isFalse (fun h => List.noConfusion h)
  | x :: xs, y :: ys => by
    have d1 : Decidable (x = y) := decEqTPBTN x y
    have d2 : Decidable (xs = ys) := decEqTPBListTN xs ys
    exact decidable_of_iff (x = y ∧ xs = ys) (by simp)
  termination_by structural a => a

/-- Decidable equality: bound predicates. -/
def decEqTPBTN : (a b : TypeParamBoundP TypeNode) → Decidable (a = b)
  | .trait b1, .trait b2 => by
    have d1 : Decidable (b1 = b2) := decEqTBTN b1 b2
    exact decidable_of_iff (b1 = b2) (by simp)
  | .trait _, .lifetime _ => isFalse (fun h => TypeParamBoundP.noConfusion h)
  | .lifetime _, .trait _ => isFalse (fun h => TypeParamBoundP.noConfusion h)
  | .lifetime l1, .lifetime l2 => decidable_of_iff (l1 = l2) (by simp)
  termination_by structural a => a

/-- Decidable equality: trait bounds. -/
def decEqTBTN : (a b : TraitBoundP TypeNode) → Decidable (a = b)
  | ⟨l1, p1⟩, ⟨l2, p2⟩ => by
    have d1 : Decidable (p1 = p2) := decEqPathTN p1 p2
    exact decidable_of_iff (l1 = l2 ∧ p1 = p2) (by simp)
  termination_by structural a => a

end

instance : DecidableEq TypeNode := decEqTN

/-- A handle into the backing vector of equality sets
(Rust: tuple struct `TypeEqualitySetRef(usize)`). -/
abbrev TypeEqualitySetRef := Nat

/-- A set of types that are considered to be equal
(`trait_inference.rs` lines 15-17; `HashSet<Type>` as a list). -/
structure TypeEqualitySet where
  set : List TypeNode
deriving DecidableEq

/-- A predicate-type constraint: `bounded_ty : bounds` with
higher-ranked lifetimes (modelled opaquely). -/
structure PredicateType where
  lifetimes : List Nat
  bounded_ty : TypeNode
  bounds : List TypeParamBound
deriving DecidableEq

/-- A generic constraint: a type predicate or a lifetime constraint
(Rust `GenericConstraint::Type` / `GenericConstraint::Lifetime`; the
first constructor is written `Type'` because `Type` is a Lean keyword). -/
inductive GenericConstraint where
  | Type' (pred : PredicateType)
  | Lifetime (l : Nat)
deriving DecidableEq

/-- A set of constraints used in the where clause of the final impl
(`trait_inference.rs` lines 20-22). -/
structure ConstraintSet where
  set : List GenericConstraint
deriving DecidableEq

/-- `ConstraintSet::insert` (`HashSet::insert`): add if not present. -/
def ConstraintSet.insert (cs : ConstraintSet) (c : GenericConstraint) : ConstraintSet :=
  if c ∈ cs.set then cs else ⟨cs.set ++ [c]⟩

/-- `ConstraintSet::contains`. -/
def ConstraintSet.contains (cs : ConstraintSet) (c : GenericConstraint) : Bool :=
  c ∈ cs.set

/-- `TypeEqualitySet::new`. -/
def TypeEqualitySet.new : TypeEqualitySet := ⟨[]⟩

/-- `TypeEqualitySet::contains`. -/
def TypeEqualitySet.contains (s : TypeEqualitySet) (ty : TypeNode) : Bool :=
  ty ∈ s.set

/-- `TypeEqualitySet::insert` (`HashSet::insert`): add if not present. -/
def TypeEqualitySet.insert (s : TypeEqualitySet) (ty : TypeNode) : TypeEqualitySet :=
  if ty ∈ s.set then s else ⟨s.set ++ [ty]⟩

/-- `TypeEqualitySet::union`: all members of `self`, then the members of
`other` that are not already present. -/
def TypeEqualitySet.union (s other : TypeEqualitySet) : TypeEqualitySet :=
  ⟨s.set ++ other.set.filter (fun t => t ∉ s.set)⟩

/-- The union-find structure (`trait_inference.rs` lines 25-28): a map
from a type to the handle of its equality set, plus the backing list of
sets.  The `HashMap` is a function into `Option`. -/
structure TypeEqualitySets where
  set_map : TypeNode → Option TypeEqualitySetRef
  sets : List TypeEqualitySet

/-- `TypeEqualitySets::new`. -/
def TypeEqualitySets.new : TypeEqualitySets := ⟨fun _ => Option.none, []⟩

/-- `TypeEqualitySets::contains_key`. -/
def TypeEqualitySets.contains_key (tes : TypeEqualitySets) (ty : TypeNode) : Bool :=
  (tes.set_map ty).isSome

/-- `TypeEqualitySets::get_set_ref`. -/
def TypeEqualitySets.get_set_ref (tes : TypeEqualitySets) (ty : TypeNode) :
    Option TypeEqualitySetRef :=
  tes.set_map ty

/-- `Vec::push` returning the handle of the pushed element
(`index_push`). -/
def indexPush (sets : List TypeEqualitySet) (s : TypeEqualitySet) :
    List TypeEqualitySet × TypeEqualitySetRef :=
  (sets ++ [s], sets.length)

/-- `TypeEqualitySets::new_set` (`trait_inference.rs` lines 140-147):
create a fresh singleton set for `ty` and map `ty` to it. -/
def TypeEqualitySets.new_set (tes : TypeEqualitySets) (ty : TypeNode) :
    TypeEqualitySets × TypeEqualitySetRef :=
  let set := TypeEqualitySet.new.insert ty
  let pushed := indexPush tes.sets set
  (⟨fun t => if t = ty then Option.some pushed.2 else tes.set_map t, pushed.1⟩, pushed.2)

/-- Size bound for zipped lists, used for termination of the solver. -/
theorem sizeOf_zip_le {α β : Type} [SizeOf α] [SizeOf β] :
    ∀ (l1 : List α) (l2 : List β), sizeOf (l1.zip l2) ≤ sizeOf l1 + sizeOf l2
  | [], l2 => by simp [List.zip] <;> omega
  | _ :: _, [] => by simp [List.zip] <;> omega
  | a :: l1, b :: l2 => by
    have h := sizeOf_zip_le l1 l2
    simp [List.zip_cons_cons] <;> omega

/-- The last element of a list is smaller than the list. -/
theorem sizeOf_getLast?_lt {α : Type} [SizeOf α] {l : List α} {x : α}
    (h : l.getLast? = Option.some x) : sizeOf x < sizeOf l := by
  obtain ⟨hne, hx⟩ := List.mem_getLast?_eq_getLast (Option.mem_def.mpr h)
  exact hx ▸ List.sizeOf_lt_of_mem (List.getLast_mem hne)

/-- Field-size bound for paths. -/
theorem sizeOf_path_field (p : PathP TypeNode) : sizeOf p.path < sizeOf p := by
  cases p; simp <;> omega

/-- Field-size bound for path segments. -/
theorem sizeOf_seg_args (s : PathSegmentP TypeNode) : sizeOf s.args < sizeOf s := by
  cases s; simp <;> omega

/-- Field-size bound for angle-bracketed argument wrappers. -/
theorem sizeOf_abga_args (a : AngleBracketedGenericArgumentsP TypeNode) :
    sizeOf a.args.args + 1 < sizeOf a := by
  cases a with
  | mk inner => cases inner; simp <;> omega

/-- Field-size bound for trait bounds. -/
theorem sizeOf_tb_path (tb : TraitBoundP TypeNode) : sizeOf tb.path < sizeOf tb := by
  cases tb; simp <;> omega

/-- The final step of `insert_as_equal_to` (`trait_inference.rs` lines
195-224): record the outer equality of `ty1` and `ty2` in the partition.
In the branch where both types already have sets, the two sets are
unioned, every member of the second set is re-pointed to the first
handle, the first handle's storage is replaced by the union and the
second handle's storage by an empty set — in this order, with no guard
for the two handles being equal.  Index panics are `none`. -/
def record_outer (tes : TypeEqualitySets) (ty1 ty2 : TypeNode) :
    Option TypeEqualitySets :=
  match tes.set_map ty1, tes.set_map ty2 with
  | Option.some set_ref1, Option.some set_ref2 =>
    match tes.sets.get? set_ref1, tes.sets.get? set_ref2 with
    | Option.some set1, Option.some set2 =>
      Option.some
        ⟨fun t =>
          if t ∈ set2.set then
            match tes.set_map t with
            | Option.some _ => Option.some set_ref1
            | Option.none => Option.none
          else tes.set_map t,
        (tes.sets.set set_ref1 (set1.union set2)).set set_ref2 TypeEqualitySet.new⟩
    | _, _ => Option.none
  | Option.some set_ref, Option.none =>
    match tes.sets.get? set_ref with
    | Option.some s =>
      Option.some
        ⟨fun t => if t = ty2 then Option.some set_ref else tes.set_map t,
        tes.sets.set set_ref (s.insert ty2)⟩
    | Option.none => Option.none
  | Option.none, Option.some set_ref =>
    match tes.sets.get? set_ref with
    | Option.some s =>
      Option.some
        ⟨fun t => if t = ty1 then Option.some set_ref else tes.set_map t,
        tes.sets.set set_ref (s.insert ty1)⟩
    | Option.none => Option.none
  | Option.none, Option.none =>
    Option.some
      ⟨fun t =>
        if t = ty1 then Option.some tes.sets.length
        else if t = ty2 then Option.some tes.sets.length
        else tes.set_map t,
      tes.sets ++ [(TypeEqualitySet.new.insert ty2).insert ty1]⟩

mutual

/-- `TypeEqualitySets::insert_as_equal_to` (`trait_inference.rs` lines
151-225): declare two types equal.  Trait-object pairs recurse into
their bounds; a one-sided trait object only emits a conformance
constraint; a reference/mutable-reference pair unifies the inner types
only; otherwise inner types are decomposed and the outer equality is
recorded.  Panics are `none`. -/
def TypeEqualitySets.insert_as_equal_to (tes : TypeEqualitySets)
    (ty1 ty2 : TypeNode) (cs : ConstraintSet) :
    Option (TypeEqualitySets × ConstraintSet) :=
  match ty1, ty2 with
  | .TraitObject bounds1, .TraitObject bounds2 =>
    if bounds1.length ≠ bounds2.length then Option.none
    else
      TypeEqualitySets.insert_inner_type_as_equal_to tes
        (.TraitObject bounds1) (.TraitObject bounds2) cs
  | .TraitObject bounds, t2 =>
    Option.some (tes, cs.insert (.Type' ⟨[], t2, bounds⟩))
  | t1, .TraitObject bounds =>
    Option.some (tes, cs.insert (.Type' ⟨[], t1, bounds⟩))
  | .Reference _ inner1, .ReferenceMut _ inner2 =>
    TypeEqualitySets.insert_as_equal_to tes inner1 inner2 cs
  | .ReferenceMut _ inner1, .Reference _ inner2 =>
    TypeEqualitySets.insert_as_equal_to tes inner1 inner2 cs
  | t1, t2 =>
    match TypeEqualitySets.insert_inner_type_as_equal_to tes t1 t2 cs with
    | Option.none => Option.none
    | Option.some (tes1, cs1) =>
      match record_outer tes1 t1 t2 with
      | Option.none => Option.none
      | Option.some tes2 => Option.some (tes2, cs1)
  termination_by 2 * (sizeOf ty1 + sizeOf ty2) + 3
  decreasing_by all_goals simp_wf <;> omega

/-- `TypeEqualitySets::insert_inner_type_as_equal_to`
(`trait_inference.rs` lines 230-272): decompose structurally equal
composite types into equalities between their components; mismatched
shapes do nothing; tuples of unequal arity panic. -/
def TypeEqualitySets.insert_inner_type_as_equal_to (tes : TypeEqualitySets)
    (ty1 ty2 : TypeNode) (cs : ConstraintSet) :
    Option (TypeEqualitySets × ConstraintSet) :=
  match ty1, ty2 with
  | .Tuple types1, .Tuple types2 =>
    if types1.length = types2.length then
      TypeEqualitySets.insert_type_pairs tes (types1.zip types2) cs
    else Option.none
  | .Reference _ inner1, .Reference _ inner2 =>
    TypeEqualitySets.insert_as_equal_to tes inner1 inner2 cs
  | .ReferenceMut _ inner1, .ReferenceMut _ inner2 =>
    TypeEqualitySets.insert_as_equal_to tes inner1 inner2 cs
  | .Path path1, .Path path2 =>
    TypeEqualitySets.insert_path_arguments_as_equal_to tes path1 path2 cs
  | .TraitObject bounds1, .TraitObject bounds2 =>
    TypeEqualitySets.insert_bound_pairs tes (bounds1.zip bounds2) cs
  | _, _ => Option.some (tes, cs)
  termination_by 2 * (sizeOf ty1 + sizeOf ty2) + 2
  decreasing_by
    all_goals simp_wf
    all_goals first
      | omega
      | (have haux1 := sizeOf_zip_le types1 types2
         omega)
      | (have haux1 := sizeOf_zip_le bounds1 bounds2
         omega)

/-- The `for_each` loop over zipped tuple components (and zipped path
argument types) inside `insert_inner_type_as_equal_to`, threading the
solver state. -/
def TypeEqualitySets.insert_type_pairs (tes : TypeEqualitySets)
    (ps : List (TypeNode × TypeNode)) (cs : ConstraintSet) :
    Option (TypeEqualitySets × ConstraintSet) :=
  match ps with
  | [] => Option.some (tes, cs)
  | (t1, t2) :: rest =>
    match TypeEqualitySets.insert_as_equal_to tes t1 t2 cs with
    | Option.none => Option.none
    | Option.some (tes1, cs1) => TypeEqualitySets.insert_type_pairs tes1 rest cs1
  termination_by 2 * sizeOf ps + 2
  decreasing_by
    all_goals simp_wf
    all_goals first
      | omega
      | (have h1 := sizeOf_tb_path trait_bound1
         have h2 := sizeOf_tb_path trait_bound2
         omega)

/-- The `for_each` loop over zipped trait-object bound pairs inside
`insert_inner_type_as_equal_to`: trait-bound pairs unify their paths'
arguments, any other pairing is skipped (lifetimes are not handled). -/
def TypeEqualitySets.insert_bound_pairs (tes : TypeEqualitySets)
    (ps : List (TypeParamBound × TypeParamBound)) (cs : ConstraintSet) :
    Option (TypeEqualitySets × ConstraintSet) :=
  match ps with
  | [] => Option.some (tes, cs)
  | (b1, b2) :: rest =>
    match b1, b2 with
    | .trait trait_bound1, .trait trait_bound2 =>
      match
        TypeEqualitySets.insert_path_arguments_as_equal_to tes
          trait_bound1.path trait_bound2.path cs
      with
      | Option.none => Option.none
      | Option.some (tes1, cs1) => TypeEqualitySets.insert_bound_pairs tes1 rest cs1
    | _, _ => TypeEqualitySets.insert_bound_pairs tes rest cs
  termination_by 2 * sizeOf ps + 2
  decreasing_by
    all_goals simp_wf
    all_goals first
      | omega
      | (have h1 := sizeOf_tb_path trait_bound1
         have h2 := sizeOf_tb_path trait_bound2
         omega)

/-- `TypeEqualitySets::insert_path_arguments_as_equal_to`
(`trait_inference.rs` lines 290-326): compare the final segments of
two paths; equal angle-bracketed argument counts unify argument by
argument, unequal counts are not compared at all.  Indexing an empty
path panics. -/
def TypeEqualitySets.insert_path_arguments_as_equal_to (tes : TypeEqualitySets)
    (path1 path2 : Path) (cs : ConstraintSet) :
    Option (TypeEqualitySets × ConstraintSet) :=
  match hseg1 : path1.path.getLast?, hseg2 : path2.path.getLast? with
  | Option.some segment1, Option.some segment2 =>
    match hargs1 : segment1.args, hargs2 : segment2.args with
    | .angleBracketed args1, .angleBracketed args2 =>
      if args1.args.args.length = args2.args.args.length then
        TypeEqualitySets.insert_arg_pairs tes (args1.args.args.zip args2.args.args) cs
      else Option.some (tes, cs)
    | _, _ => Option.some (tes, cs)
  | _, _ => Option.none
  termination_by 2 * (sizeOf path1 + sizeOf path2) + 3
  decreasing_by
    all_goals simp_wf
    have e1 := sizeOf_getLast?_lt hseg1
    have e2 := sizeOf_getLast?_lt hseg2
    have e3 := sizeOf_path_field path1
    have e4 := sizeOf_path_field path2
    have e5 := congrArg sizeOf hargs1
    have e6 := congrArg sizeOf hargs2
    simp at e5 e6
    have e7 := sizeOf_seg_args segment1
    have e8 := sizeOf_seg_args segment2
    have e9 := sizeOf_abga_args args1
    have e10 := sizeOf_abga_args args2
    have e11 := sizeOf_zip_le args1.args.args args2.args.args
    omega

/-- The `for_each` loop over zipped generic-argument pairs inside
`insert_path_arguments_as_equal_to`: type/type pairs are unified, any
other pairing is `unimplemented!` (modelled as `none`). -/
def TypeEqualitySets.insert_arg_pairs (tes : TypeEqualitySets)
    (ps : List (GenericArgument × GenericArgument)) (cs : ConstraintSet) :
    Option (TypeEqualitySets × ConstraintSet) :=
  match ps with
  | [] => Option.some (tes, cs)
  | (a1, a2) :: rest =>
    match a1, a2 with
    | .type t1, .type t2 =>
      match TypeEqualitySets.insert_as_equal_to tes t1 t2 cs with
      | Option.none => Option.none
      | Option.some (tes1, cs1) => TypeEqualitySets.insert_arg_pairs tes1 rest cs1
    | _, _ => Option.none
  termination_by 2 * sizeOf ps + 2
  decreasing_by
    all_goals simp_wf
    all_goals first
      | omega
      | (have h1 := sizeOf_tb_path trait_bound1
         have h2 := sizeOf_tb_path trait_bound2
         omega)

end

/-- The memoization map `most_concrete_type_map`
(`BTreeMap<TypeEqualitySetRef, TypeNode>` as a function). -/
def MMap := TypeEqualitySetRef → Option TypeNode

/-- `BTreeMap::insert`. -/
def MMap.insert (m : MMap) (r : TypeEqualitySetRef) (t : TypeNode) : MMap :=
  fun x => if x = r then Option.some t else m x

/-- Domain growth between two memoization maps: every cached handle
stays cached.  Carried through the recursion for termination. -/
def MMap.dom_le (m m' : MMap) : Prop :=
  ∀ r : TypeEqualitySetRef, (m r).isSome → (m' r).isSome

/-- Domain growth is reflexive. -/
theorem MMap.dom_le_refl (m : MMap) : MMap.dom_le m m := fun _ h => h

/-- Domain growth is transitive. -/
theorem MMap.dom_le_trans {m1 m2 m3 : MMap} (h1 : MMap.dom_le m1 m2)
    (h2 : MMap.dom_le m2 m3) : MMap.dom_le m1 m3 :=
  fun r h => h2 r (h1 r h)

/-- Inserting only grows the domain. -/
theorem MMap.dom_le_insert (m : MMap) (r : TypeEqualitySetRef) (t : TypeNode) :
    MMap.dom_le m (m.insert r t) := by
  intro x hx
  unfold MMap.insert
  by_cases h : x = r <;> simp [h, hx]

/-- Number of in-range set handles not yet cached in the memoization
map; the primary termination measure of the synthesizer. -/
def uncached (tes : TypeEqualitySets) (m : MMap) : Nat :=
  ((Finset.range tes.sets.length).filter (fun i => m i = Option.none)).card

/-- Domain growth cannot increase the number of uncached handles. -/
theorem uncached_mono (tes : TypeEqualitySets) {m m' : MMap}
    (h : MMap.dom_le m m') : uncached tes m' ≤ uncached tes m := by
  apply Finset.card_le_card
  intro x hx
  simp only [Finset.mem_filter, Finset.mem_range] at hx ⊢
  refine ⟨hx.1, ?_⟩
  by_contra hc
  have hs : (m x).isSome := by
    cases hmx : m x
    · exact absurd hmx hc
    · simp
  have := h x hs
  rw [hx.2] at this
  simp at this

/-- Caching a previously uncached in-range handle strictly decreases
the number of uncached handles. -/
theorem uncached_insert_lt (tes : TypeEqualitySets) (m : MMap)
    (ref : TypeEqualitySetRef) (t : TypeNode) (href : ref < tes.sets.length)
    (hnone : m ref = Option.none) :
    uncached tes (m.insert ref t) < uncached tes m := by
  apply Finset.card_lt_card
  constructor
  · intro x hx
    simp only [Finset.mem_filter, Finset.mem_range, MMap.insert] at hx ⊢
    rcases hx with ⟨hx1, hx2⟩
    refine ⟨hx1, ?_⟩
    by_cases h : x = ref
    · simp [h] at hx2
    · simpa [h] using hx2
  · intro hsub
    have : ref ∈ (Finset.range tes.sets.length).filter (fun i => m i = Option.none) := by
      simp [Finset.mem_filter, Finset.mem_range, href, hnone]
    have := hsub this
    simp [Finset.mem_filter, MMap.insert] at this

/-- The result of a synthesizer step: `none` on panic, otherwise a
value together with the updated memoization map and a proof that the
map's domain only grew. -/
abbrev MRes (α : Type) (m : MMap) : Type :=
  Option (α × { m' : MMap // MMap.dom_le m m' })

/-- Return without touching the memoization map. -/
def mpure {α : Type} {m : MMap} (a : α) : MRes α m :=
  Option.some (a, ⟨m, MMap.dom_le_refl m⟩)

/-- Sequencing of synthesizer steps, composing domain-growth proofs. -/
def mbind {α β : Type} {m : MMap} (x : MRes α m)
    (f : (a : α) → (m' : { mm : MMap // MMap.dom_le m mm }) → MRes β m'.1) :
    MRes β m :=
  match x with
  | Option.none => Option.none
  | Option.some (a, m') =>
    match f a m' with
    | Option.none => Option.none
    | Option.some (b, m'') => Option.some (b, ⟨m''.1, MMap.dom_le_trans m'.2 m''.2⟩)

/-- Replace the arguments of the final segment of a path (the
functional version of Rust's in-place `segment.args` mutation). -/
def Path.setLastArgs (p : Path) (a : PathArguments) : Path :=
  match p.path.getLast? with
  | Option.none => p
  | Option.some seg => ⟨p.global, p.path.set (p.path.length - 1) ⟨seg.ident, a⟩⟩

/-- Positivity of path sizes, used in termination proofs. -/
theorem sizeOf_pathP_pos (p : PathP TypeNode) : 0 < sizeOf p := by
  cases p; simp <;> omega

mutual

/-- `TypeEqualitySetRef::make_most_concrete` (`trait_inference.rs`
lines 77-117), internal form: if the handle is cached return the cached
node; otherwise seed the cache with `Infer` (cycle safety), fold
`make_most_concrete_from_pair` over the members of the backing set
(or normalize the single member), and overwrite the seed with the
result.  An out-of-range handle or an empty backing set panics at the
`next().unwrap()` of the member iterator. -/
def mmcSetRefAux (tes : TypeEqualitySets) (ref : TypeEqualitySetRef) (m : MMap) :
    MRes TypeNode m :=
  match hcached : m ref with
  | Option.some node => Option.some (node, ⟨m, MMap.dom_le_refl m⟩)
  | Option.none =>
    match hset : tes.sets.get? ref with
    | Option.none => Option.none
    | Option.some eqset =>
      match eqset.set with
      | [] => Option.none
      | first :: rest =>
        match rest with
        | [] =>
          match mmcInnerAux tes first (MMap.insert m ref .Infer) with
          | Option.none => Option.none
          | Option.some (mc, m2) =>
            Option.some (mc,
              ⟨MMap.insert m2.1 ref mc,
               MMap.dom_le_trans (MMap.dom_le_insert m ref .Infer)
                 (MMap.dom_le_trans m2.2 (MMap.dom_le_insert m2.1 ref mc))⟩)
        | r1 :: rrest =>
          match mmcFoldAux tes first (r1 :: rrest) (MMap.insert m ref .Infer) with
          | Option.none => Option.none
          | Option.some (mc, m2) =>
            Option.some (mc,
              ⟨MMap.insert m2.1 ref mc,
               MMap.dom_le_trans (MMap.dom_le_insert m ref .Infer)
                 (MMap.dom_le_trans m2.2 (MMap.dom_le_insert m2.1 ref mc))⟩)
  termination_by (uncached tes m, 0, 0)
  decreasing_by
    all_goals simp_wf
    all_goals simp [Prod.lex_iff]
    all_goals
      obtain ⟨href, -⟩ := List.get?_eq_some.mp hset
      have := uncached_insert_lt tes m ref .Infer href hcached
      omega

/-- The `iterator.fold` inside `make_most_concrete`, threading the
memoization map through `make_most_concrete_from_pair`. -/
def mmcFoldAux (tes : TypeEqualitySets) (cur : TypeNode) (rest : List TypeNode)
    (m : MMap) : MRes TypeNode m :=
  match rest with
  | [] => mpure cur
  | ty :: rest' =>
    mbind (mmcPairAux tes cur ty m) (fun t' m' => mmcFoldAux tes t' rest' m'.1)
  termination_by (uncached tes m, 2 + rest.length, 0)
  decreasing_by
    all_goals simp_wf
    all_goals simp [Prod.lex_iff]
    all_goals first
      | omega
      | (have haux1 := uncached_mono tes m'.2
         omega)

/-- `TypeNode::make_most_concrete` (`trait_inference.rs` lines
631-642), internal form: resolve through the type's equality set if it
has one. -/
def mmcNodeAux (tes : TypeEqualitySets) (t : TypeNode) (m : MMap) :
    MRes TypeNode m :=
  match tes.get_set_ref t with
  | Option.some set_ref => mmcSetRefAux tes set_ref m
  | Option.none => Option.some (t, ⟨m, MMap.dom_le_refl m⟩)
  termination_by (uncached tes m, 1, sizeOf t)
  decreasing_by
    all_goals simp_wf
    all_goals simp [Prod.lex_iff]
    all_goals omega

/-- `TypeNode::make_most_concrete_from_pair` (`trait_inference.rs`
lines 647-726), internal form.  The arm order mirrors the source:
`Infer` loses to anything, `PrimitiveStr` wins against anything, paths
resolve through path-level concreteness, equal-arity tuples and
matching references recurse component-wise, a trait object loses to the
other side, two type parameters pick the smaller identity, and any
other pairing panics. -/
def mmcPairAux (tes : TypeEqualitySets) (ty1 ty2 : TypeNode) (m : MMap) :
    MRes TypeNode m :=
  match ty1, ty2 with
  | .Infer, node => mmcInnerAux tes node m
  | node, .Infer => mmcInnerAux tes node m
  | .PrimitiveStr, _ => mpure .PrimitiveStr
  | _, .PrimitiveStr => mpure .PrimitiveStr
  | .Path path1, .Path path2 => mmcPathPairAux tes path1 path2 m
  | .Path path, _ =>
    match mmcPathInnerAux tes path m with
    | Option.none => Option.none
    | Option.some (p', m') => Option.some (.Path p', m')
  | _, .Path path =>
    match mmcPathInnerAux tes path m with
    | Option.none => Option.none
    | Option.some (p', m') => Option.some (.Path p', m')
  | .Tuple types1, .Tuple types2 =>
    if types1.length = types2.length then
      match mmcPairListAux tes (types1.zip types2) m with
      | Option.none => Option.none
      | Option.some (ts, m') => Option.some (.Tuple ts, m')
    else Option.none
  | .Reference _ inner1, .Reference _ inner2 =>
    match mmcPairAux tes inner1 inner2 m with
    | Option.none => Option.none
    | Option.some (t', m') => Option.some (.Reference Option.none t', m')
  | .ReferenceMut _ inner1, .ReferenceMut _ inner2 =>
    match mmcPairAux tes inner1 inner2 m with
    | Option.none => Option.none
    | Option.some (t', m') => Option.some (.ReferenceMut Option.none t', m')
  | .TraitObject _, node => mmcInnerAux tes node m
  | node, .TraitObject _ => mmcInnerAux tes node m
  | .TypeParam ref1, .TypeParam ref2 =>
    mpure (if ref1 < ref2 then .TypeParam ref1 else .TypeParam ref2)
  | _, _ => Option.none
  termination_by (uncached tes m, 1, sizeOf ty1 + sizeOf ty2)
  decreasing_by
    all_goals simp_wf
    all_goals simp [Prod.lex_iff]
    all_goals first
      | omega
      | (have haux1 := sizeOf_zip_le types1 types2
         omega)

/-- `TypeNode::make_most_concrete_inner` (`trait_inference.rs` lines
728-760), internal form: resolve the immediate components of a
composite node, leave other nodes unchanged. -/
def mmcInnerAux (tes : TypeEqualitySets) (t : TypeNode) (m : MMap) :
    MRes TypeNode m :=
  match t with
  | .Tuple types =>
    match mmcListAux tes types m with
    | Option.none => Option.none
    | Option.some (ts, m') => Option.some (.Tuple ts, m')
  | .Reference lifetime inner =>
    match mmcNodeAux tes inner m with
    | Option.none => Option.none
    | Option.some (t', m') => Option.some (.Reference lifetime t', m')
  | .ReferenceMut lifetime inner =>
    match mmcNodeAux tes inner m with
    | Option.none => Option.none
    | Option.some (t', m') => Option.some (.ReferenceMut lifetime t', m')
  | .Path path =>
    match mmcPathInnerAux tes path m with
    | Option.none => Option.none
    | Option.some (p', m') => Option.some (.Path p', m')
  | node => mpure node
  termination_by (uncached tes m, 1, sizeOf t)
  decreasing_by
    all_goals simp_wf
    all_goals simp [Prod.lex_iff]
    all_goals omega

/-- The component-wise `map` inside `make_most_concrete_inner` for
tuples, threading the memoization map. -/
def mmcListAux (tes : TypeEqualitySets) (ts : List TypeNode) (m : MMap) :
    MRes (List TypeNode) m :=
  match ts with
  | [] => mpure []
  | ty :: rest =>
    mbind (mmcNodeAux tes ty m) (fun t' m' =>
      mbind (mmcListAux tes rest m'.1) (fun ts' _ => mpure (t' :: ts')))
  termination_by (uncached tes m, 1, sizeOf ts)
  decreasing_by
    all_goals simp_wf
    all_goals simp [Prod.lex_iff]
    all_goals first
      | omega
      | (have haux1 := uncached_mono tes m'.2
         omega)

/-- The component-wise `map` over zipped tuple members inside
`make_most_concrete_from_pair`. -/
def mmcPairListAux (tes : TypeEqualitySets) (ps : List (TypeNode × TypeNode))
    (m : MMap) : MRes (List TypeNode) m :=
  match ps with
  | [] => mpure []
  | (t1, t2) :: rest =>
    mbind (mmcPairAux tes t1 t2 m) (fun t' m' =>
      mbind (mmcPairListAux tes rest m'.1) (fun ts' _ => mpure (t' :: ts')))
  termination_by (uncached tes m, 1, sizeOf ps)
  decreasing_by
    all_goals simp_wf
    all_goals simp [Prod.lex_iff]
    all_goals first
      | omega
      | (have haux1 := uncached_mono tes m'.2
         omega)

/-- `Path::make_most_concrete_inner` (`trait_inference.rs` lines
893-930), internal form: resolve the type arguments of the final
segment; a lifetime argument is `unimplemented!`; an empty path panics
at the final-segment index. -/
def mmcPathInnerAux (tes : TypeEqualitySets) (p : Path) (m : MMap) :
    MRes Path m :=
  match hlast : p.path.getLast? with
  | Option.none => Option.none
  | Option.some segment =>
    match hargs : segment.args with
    | .none => mpure p
    | .angleBracketed args =>
      match mmcArgListAux tes args.args.args m with
      | Option.none => Option.none
      | Option.some (newargs, m') =>
        Option.some (p.setLastArgs (.angleBracketed ⟨⟨newargs⟩⟩), m')
  termination_by (uncached tes m, 1, sizeOf p)
  decreasing_by
    all_goals simp_wf
    all_goals simp [Prod.lex_iff]
    all_goals
      have e1 := sizeOf_getLast?_lt hlast
      have e2 := congrArg sizeOf hargs
      simp at e2
      have e3 := sizeOf_seg_args segment
      have e4 := sizeOf_abga_args args
      have e5 := sizeOf_path_field p
      omega

/-- The argument `map` inside `Path::make_most_concrete_inner`. -/
def mmcArgListAux (tes : TypeEqualitySets) (args : List GenericArgument)
    (m : MMap) : MRes (List GenericArgument) m :=
  match args with
  | [] => mpure []
  | .type ty :: rest =>
    mbind (mmcNodeAux tes ty m) (fun t' m' =>
      mbind (mmcArgListAux tes rest m'.1) (fun ts' _ => mpure (.type t' :: ts')))
  | .lifetime _ :: _ => Option.none
  termination_by (uncached tes m, 1, sizeOf args)
  decreasing_by
    all_goals simp_wf
    all_goals simp [Prod.lex_iff]
    all_goals first
      | omega
      | (have haux1 := uncached_mono tes m'.2
         omega)

/-- `Path::make_most_concrete_from_pair` (`trait_inference.rs` lines
955-1020), internal form: a path with no arguments on its final
segment wins outright; with angle-bracketed arguments on both sides the
path with fewer arguments is resolved further and wins; equal counts
are combined argument by argument, the globally-qualified or shorter
path surviving as the shell.  An empty path panics. -/
def mmcPathPairAux (tes : TypeEqualitySets) (path1 path2 : Path) (m : MMap) :
    MRes TypeNode m :=
  match hl1 : path1.path.getLast?, hl2 : path2.path.getLast? with
  | Option.some segment1, Option.some segment2 =>
    match ha1 : segment1.args, ha2 : segment2.args with
    | .none, _ => mpure (.Path path1)
    | _, .none => mpure (.Path path2)
    | .angleBracketed args1, .angleBracketed args2 =>
      if args1.args.args.length < args2.args.args.length then
        mmcNodeAux tes (.Path path1) m
      else if args2.args.args.length < args1.args.args.length then
        mmcNodeAux tes (.Path path2) m
      else
        mbind (mmcArgPairListAux tes (args1.args.args.zip args2.args.args) m)
          (fun args _ =>
            mpure (if path1.global || path1.path.length < path2.path.length
              then .Path (path1.setLastArgs (.angleBracketed ⟨⟨args⟩⟩))
              else .Path (path2.setLastArgs (.angleBracketed ⟨⟨args⟩⟩))))
  | _, _ => Option.none
  termination_by (uncached tes m, 1, sizeOf path1 + sizeOf path2 + 1)
  decreasing_by
    all_goals simp_wf
    all_goals simp [Prod.lex_iff]
    all_goals first
      | (have haux1 := sizeOf_pathP_pos path1
         have := sizeOf_pathP_pos path2
         omega)
      | (have e1 := sizeOf_getLast?_lt hl1
         have e2 := sizeOf_getLast?_lt hl2
         have e3 := congrArg sizeOf ha1
         have e4 := congrArg sizeOf ha2
         simp at e3 e4
         have e5 := sizeOf_seg_args segment1
         have e6 := sizeOf_seg_args segment2
         have e7 := sizeOf_abga_args args1
         have e8 := sizeOf_abga_args args2
         have e9 := sizeOf_zip_le args1.args.args args2.args.args
         have e10 := sizeOf_path_field path1
         have e11 := sizeOf_path_field path2
         omega)

/-- The argument `map` over zipped argument pairs inside
`Path::make_most_concrete_from_pair`: type pairs recurse, lifetime
pairs keep the first lifetime, mixed pairs are `unimplemented!`. -/
def mmcArgPairListAux (tes : TypeEqualitySets)
    (ps : List (GenericArgument × GenericArgument)) (m : MMap) :
    MRes (List GenericArgument) m :=
  match ps with
  | [] => mpure []
  | (a1, a2) :: rest =>
    match a1, a2 with
    | .type ty1, .type ty2 =>
      mbind (mmcPairAux tes ty1 ty2 m) (fun t' m' =>
        mbind (mmcArgPairListAux tes rest m'.1) (fun ts' _ => mpure (.type t' :: ts')))
    | .lifetime lifetime_ref1, .lifetime _ =>
      mbind (mmcArgPairListAux tes rest m) (fun ts' _ =>
        mpure (.lifetime lifetime_ref1 :: ts'))
    | _, _ => Option.none
  termination_by (uncached tes m, 1, sizeOf ps)
  decreasing_by
    all_goals simp_wf
    all_goals simp [Prod.lex_iff]
    all_goals first
      | omega
      | (have haux1 := uncached_mono tes m'.2
         omega)

end

/-- `TypeEqualitySetRef::make_most_concrete` (`trait_inference.rs`
lines 77-117): public form, dropping the internal domain-growth
proof. -/
def TypeEqualitySetRef.make_most_concrete (ref : TypeEqualitySetRef)
    (most_concrete_type_map : MMap) (type_equality_sets : TypeEqualitySets) :
    Option (TypeNode × MMap) :=
  (mmcSetRefAux type_equality_sets ref most_concrete_type_map).map
    (fun p => (p.1, p.2.1))

/-- `TypeNode::make_most_concrete` (`trait_inference.rs` lines
631-642): public form. -/
def TypeNode.make_most_concrete (t : TypeNode) (most_concrete_type_map : MMap)
    (type_equality_sets : TypeEqualitySets) : Option (TypeNode × MMap) :=
  (mmcNodeAux type_equality_sets t most_concrete_type_map).map
    (fun p => (p.1, p.2.1))

/-- `TypeNode::make_most_concrete_from_pair` (`trait_inference.rs`
lines 647-726): public form. -/
def TypeNode.make_most_concrete_from_pair (ty1 ty2 : TypeNode)
    (most_concrete_type_map : MMap) (type_equality_sets : TypeEqualitySets) :
    Option (TypeNode × MMap) :=
  (mmcPairAux type_equality_sets ty1 ty2 most_concrete_type_map).map
    (fun p => (p.1, p.2.1))

/-- `TypeNode::make_most_concrete_inner` (`trait_inference.rs` lines
728-760): public form. -/
def TypeNode.make_most_concrete_inner (t : TypeNode)
    (most_concrete_type_map : MMap) (type_equality_sets : TypeEqualitySets) :
    Option (TypeNode × MMap) :=
  (mmcInnerAux type_equality_sets t most_concrete_type_map).map
    (fun p => (p.1, p.2.1))

/-- `Path::make_most_concrete_inner` (`trait_inference.rs` lines
893-930): public form. -/
def Path.make_most_concrete_inner (p : Path) (most_concrete_type_map : MMap)
    (type_equality_sets : TypeEqualitySets) : Option (Path × MMap) :=
  (mmcPathInnerAux type_equality_sets p most_concrete_type_map).map
    (fun q => (q.1, q.2.1))

/-- `Path::make_most_concrete_from_pair` (`trait_inference.rs` lines
955-1020): public form. -/
def Path.make_most_concrete_from_pair (path1 path2 : Path)
    (most_concrete_type_map : MMap) (type_equality_sets : TypeEqualitySets) :
    Option (TypeNode × MMap) :=
  (mmcPathPairAux type_equality_sets path1 path2 most_concrete_type_map).map
    (fun p => (p.1, p.2.1))

/-- `TypeNode::is_relevant_for_constraint` (`trait_inference.rs` lines
605-629): a type parameter is relevant iff its equality set is among
the relevant generic-parameter sets; references look through to their
inner type; every other node is irrelevant. -/
def TypeNode.is_relevant_for_constraint (t : TypeNode)
    (type_equality_sets : TypeEqualitySets)
    (relevant_generic_params : Finset TypeEqualitySetRef) : Bool :=
  match t with
  | .TypeParam type_param_ref =>
    match type_equality_sets.get_set_ref (.TypeParam type_param_ref) with
    | Option.some set_ref => set_ref ∈ relevant_generic_params
    | Option.none => false
  | .Reference _ inner =>
    inner.is_relevant_for_constraint type_equality_sets relevant_generic_params
  | .ReferenceMut _ inner =>
    inner.is_relevant_for_constraint type_equality_sets relevant_generic_params
  | _ => false

/-- `Path::is_relevant_for_constraint` (`trait_inference.rs` lines
840-862): every segment's type arguments must be relevant; lifetime
arguments are always considered relevant. -/
def Path.is_relevant_for_constraint (p : Path)
    (type_equality_sets : TypeEqualitySets)
    (relevant_generic_params : Finset TypeEqualitySetRef) : Bool :=
  p.path.all (fun segment =>
    match segment.args with
    | .none => true
    | .angleBracketed args =>
      args.args.args.all (fun arg =>
        match arg with
        | .type ty =>
          ty.is_relevant_for_constraint type_equality_sets relevant_generic_params
        | .lifetime _ => true))

/-- `TypeParamBound::is_relevant_for_constraint` (`trait_inference.rs`
lines 797-815). -/
def TypeParamBound.is_relevant_for_constraint (b : TypeParamBound)
    (type_equality_sets : TypeEqualitySets)
    (relevant_generic_params : Finset TypeEqualitySetRef) : Bool :=
  match b with
  | .trait bound =>
    Path.is_relevant_for_constraint bound.path type_equality_sets relevant_generic_params
  | .lifetime _ => true

/-- `PredicateType::is_relevant_for_constraint` (`trait_inference.rs`
lines 566-577): the bounded type and every bound must be relevant. -/
def PredicateType.is_relevant_for_constraint (pt : PredicateType)
    (type_equality_sets : TypeEqualitySets)
    (relevant_generic_params : Finset TypeEqualitySetRef) : Bool :=
  pt.bounded_ty.is_relevant_for_constraint type_equality_sets relevant_generic_params
    && pt.bounds.all (fun bound =>
        bound.is_relevant_for_constraint type_equality_sets relevant_generic_params)

/-- `GenericConstraint::is_relevant` (`trait_inference.rs` lines
532-545): lifetime constraints are always relevant. -/
def GenericConstraint.is_relevant (c : GenericConstraint)
    (type_equality_sets : TypeEqualitySets)
    (relevant_generic_params : Finset TypeEqualitySetRef) : Bool :=
  match c with
  | .Type' pred_ty =>
    pred_ty.is_relevant_for_constraint type_equality_sets relevant_generic_params
  | .Lifetime _ => true

/-- `TypeParamBound::make_most_concrete_inner` (`trait_inference.rs`
lines 817-836). -/
def TypeParamBound.make_most_concrete_inner (b : TypeParamBound)
    (most_concrete_type_map : MMap) (type_equality_sets : TypeEqualitySets) :
    Option (TypeParamBound × MMap) :=
  match b with
  | .trait bound =>
    match Path.make_most_concrete_inner bound.path most_concrete_type_map type_equality_sets with
    | Option.none => Option.none
    | Option.some (p', m') => Option.some (.trait ⟨bound.lifetimes, p'⟩, m')
  | .lifetime l => Option.some (.lifetime l, most_concrete_type_map)

/-- The `map` over bounds inside `PredicateType::make_most_concrete`,
threading the memoization map. -/
def makeBoundsMostConcrete (bounds : List TypeParamBound)
    (most_concrete_type_map : MMap) (type_equality_sets : TypeEqualitySets) :
    Option (List TypeParamBound × MMap) :=
  match bounds with
  | [] => Option.some ([], most_concrete_type_map)
  | b :: rest =>
    match b.make_most_concrete_inner most_concrete_type_map type_equality_sets with
    | Option.none => Option.none
    | Option.some (b', m') =>
      match makeBoundsMostConcrete rest m' type_equality_sets with
      | Option.none => Option.none
      | Option.some (bs', m'') => Option.some (b' :: bs', m'')

/-- `PredicateType::make_most_concrete` (`trait_inference.rs` lines
579-601): resolve the bounded type and every bound; lifetimes pass
through. -/
def PredicateType.make_most_concrete (pt : PredicateType)
    (most_concrete_type_map : MMap) (type_equality_sets : TypeEqualitySets) :
    Option (PredicateType × MMap) :=
  match pt.bounded_ty.make_most_concrete most_concrete_type_map type_equality_sets with
  | Option.none => Option.none
  | Option.some (bounded_ty, m1) =>
    match makeBoundsMostConcrete pt.bounds m1 type_equality_sets with
    | Option.none => Option.none
    | Option.some (bounds, m2) =>
      Option.some (⟨pt.lifetimes, bounded_ty, bounds⟩, m2)

/-- `GenericConstraint::make_most_concrete` (`trait_inference.rs`
lines 547-562): lifetime constraints pass through unchanged. -/
def GenericConstraint.make_most_concrete (c : GenericConstraint)
    (most_concrete_type_map : MMap) (type_equality_sets : TypeEqualitySets) :
    Option (GenericConstraint × MMap) :=
  match c with
  | .Type' pred_ty =>
    match pred_ty.make_most_concrete most_concrete_type_map type_equality_sets with
    | Option.none => Option.none
    | Option.some (pt', m') => Option.some (.Type' pt', m')
  | .Lifetime l => Option.some (.Lifetime l, most_concrete_type_map)

/-- `GenericConstraint::make_relevant` (`trait_inference.rs` lines
518-530): resolve the constraint to its most concrete form, then keep
it only if it is relevant.  The outer `Option` is the panic monad, the
inner one is the source's `Option<Self>` ("`None` = drop the
constraint"). -/
def GenericConstraint.make_relevant (c : GenericConstraint)
    (most_concrete_type_map : MMap) (type_equality_sets : TypeEqualitySets)
    (relevant_generic_params : Finset TypeEqualitySetRef) :
    Option (Option GenericConstraint × MMap) :=
  match c.make_most_concrete most_concrete_type_map type_equality_sets with
  | Option.none => Option.none
  | Option.some (most_concrete, m') =>
    if most_concrete.is_relevant type_equality_sets relevant_generic_params then
      Option.some (Option.some most_concrete, m')
    else
      Option.some (Option.none, m')

/-- Handle into the value arena (`ValueRef(usize)`). -/
abbrev ValueRef := Nat

/-- Handle into the invocation arena (`InvokeRef(usize)`). -/
abbrev InvokeRef := Nat

/-- Handle into the macro-invocation arena (`MacroInvokeRef(usize)`). -/
abbrev MacroInvokeRef := Nat

/-- Identifier.  Modelled from the spec: names are opaque strings. -/
abbrev Ident := String

/-- Modelled from the spec: a field/member projection accessor for a
destructured value (the `Accessor` type is not among the given
sources). -/
inductive Accessor where
  | index (i : Nat)
  | name (n : String)
deriving DecidableEq

/-- Modelled from the spec: a data-structure construction is "name +
keyed field values" (the `Data` type is not among the given sources). -/
abbrev Data (V : Type) := List (String × V)

/-- Modelled from the spec: the receiver-binding mode of an invocation
(no receiver; by value; by reference; by mutable reference). -/
inductive Receiver where
  | NoSelf
  | SelfByValue
  | SelfByReference
  | SelfByReferenceMut
deriving DecidableEq

/-- Modelled from the spec (§3 `InvocationRecord`): a function's
generic signature — receiver kind, ordered parameter types, return
type.  (The signature's own generic constraints are not needed by the
claims about `get_type`.) -/
structure Signature where
  receiver : Receiver
  inputs : List TypeNode
  output : TypeNode

/-- Modelled from the spec: the receiver ("parent") declaration of an
invoked function, carrying its declared Type. -/
structure Parent where
  ty : TypeNode

/-- Modelled from the spec: function identity — optional parent plus
signature. -/
structure Function where
  parent : Option Parent
  sig : Signature

/-- Modelled from the spec (§3 `InvocationRecord`): the invoked
function and the ordered argument value handles. -/
structure Invoke where
  function : Function
  args : List ValueRef

/-- Modelled from the spec: an opaque macro-invocation record. -/
structure MacroInvoke where
  id : Nat

/-- `ValueNode` (`node.rs` lines 7-31): a recorded computed value.
Note: `node.rs` writes the type of a reference value as a single
`TypeNode::Reference` constructor with an `is_mut` field, while
`trait_inference.rs` distinguishes `Reference` and `ReferenceMut`
constructors; in this embedding the flag selects between the two
constructors. -/
inductive ValueNode where
  | Tuple (values : List ValueRef)
  | Str (s : String)
  | Reference (is_mut : Bool) (value : ValueRef)
  | Dereference (v : ValueRef)
  | Binding (name : Ident) (ty : TypeNode)
  | DataStructure (name : String) (data : Data ValueRef)
  | Invoke (invoke_ref : InvokeRef)
  | Destructure (parent : ValueRef) (accessor : Accessor) (ty : TypeNode)
  | MacroInvocation (m : MacroInvokeRef)

mutual

/-- `ValueRef::get_type` (`node.rs` lines 96-99): look the value up in
the (explicitly passed) value arena and derive its type.  An
out-of-range handle panics.  Modelled from the spec: the arena is
append-only, so a stored value only references earlier handles;
recursion is therefore bounded by the handle index. -/
def ValueRef.get_type (values : List ValueNode) (invokes : List Invoke)
    (r : Nat) : Option TypeNode :=
  match values.get? r with
  | Option.none => Option.none
  | Option.some node => ValueNode.get_type values invokes r node
  termination_by (3 * r + 3, 0)
  decreasing_by
    all_goals simp_wf
    all_goals first
      | (apply Prod.Lex.right
         omega)
      | (apply Prod.Lex.left
         omega)

/-- `ValueNode::get_type` (`node.rs` lines 34-57): derive the type of a
recorded value.  `b` is the bound on referenced handles (the index at
which the node is stored; see `ValueRef.get_type`).  The `Dereference`,
`DataStructure` and `MacroInvocation` variants panic
(`node => panic!("ValueNode::get_type")`). -/
def ValueNode.get_type (values : List ValueNode) (invokes : List Invoke)
    (b : Nat) (v : ValueNode) : Option TypeNode :=
  match v with
  | .Tuple types =>
    match getTypeList values invokes b types with
    | Option.none => Option.none
    | Option.some ts => Option.some (.Tuple ts)
  | .Str _ => Option.some .PrimitiveStr
  | .Reference is_mut value =>
    if hlt : value < b then
      match ValueRef.get_type values invokes value with
      | Option.none => Option.none
      | Option.some inner =>
        Option.some
          (if is_mut then .ReferenceMut Option.none inner
           else .Reference Option.none inner)
    else Option.none
  | .Binding _ ty => Option.some ty
  | .Destructure _ _ ty => Option.some ty
  | .Invoke invoke_ref =>
    match invokes.get? invoke_ref with
    | Option.none => Option.none
    | Option.some invoke => Option.some invoke.function.sig.output
  | _ => Option.none
  termination_by (3 * b + 2, 0)
  decreasing_by
    all_goals simp_wf
    all_goals try (have hlt2 : @LT.lt Nat instLTNat value b := hlt)
    all_goals first
      | (apply Prod.Lex.right
         omega)
      | (apply Prod.Lex.left
         omega)

/-- The component iteration inside `ValueNode::get_type` for tuple
values. -/
def getTypeList (values : List ValueNode) (invokes : List Invoke)
    (b : Nat) (rs : List Nat) : Option (List TypeNode) :=
  match rs with
  | [] => Option.some []
  | r :: rest =>
    if hlt : r < b then
      match ValueRef.get_type values invokes r with
      | Option.none => Option.none
      | Option.some t =>
        match getTypeList values invokes b rest with
        | Option.none => Option.none
        | Option.some ts => Option.some (t :: ts)
    else Option.none
  termination_by (3 * b + 1, rs.length)
  decreasing_by
    all_goals simp_wf
    all_goals try (have hlt2 : @LT.lt Nat instLTNat r b := hlt)
    all_goals first
      | (apply Prod.Lex.right
         omega)
      | (apply Prod.Lex.left
         omega)

end

/-- The per-thread global state (`global_data.rs` lines 5-11): the
three arenas plus the two counters.  `TYPE_PARAMS` starts at 0 and
`LIFETIMES` at 1 (`Lifetime(0)` is the static lifetime). -/
structure GlobalState where
  values : List ValueNode
  invokes : List Invoke
  macros : List MacroInvoke
  type_params : Nat
  lifetimes : Nat

/-- The initial thread-local state (`global_data.rs` lines 5-11). -/
def initialGlobalState : GlobalState := ⟨[], [], [], 0, 1⟩

/-- `STATIC_LIFETIME` (`global_data.rs` line 13). -/
def STATIC_LIFETIME : Nat := 0

/-- `clear` (`global_data.rs` lines 82-89): empty the three arenas;
the `TYPE_PARAMS` and `LIFETIMES` counters are deliberately not
reset. -/
def clear (s : GlobalState) : GlobalState :=
  ⟨[], [], [], s.type_params, s.lifetimes⟩

/-- `GlobalCounter<TypeParam>::count` (`global_data.rs` lines 72-80):
return the current counter value as the fresh identity and
increment. -/
def countTypeParam (s : GlobalState) : Nat × GlobalState :=
  (s.type_params, ⟨s.values, s.invokes, s.macros, s.type_params + 1, s.lifetimes⟩)

/-- `GlobalCounter<Lifetime>::count` (`global_data.rs` lines 62-70). -/
def countLifetime (s : GlobalState) : Nat × GlobalState :=
  (s.lifetimes, ⟨s.values, s.invokes, s.macros, s.type_params, s.lifetimes + 1⟩)

/-- One operation on the thread-local global state: allocate a
generic-parameter or lifetime identity, clear, or push into one of the
three arenas. -/
inductive GlobalOp where
  | allocTypeParam
  | allocLifetime
  | clearArenas
  | pushValue (v : ValueNode)
  | pushInvoke (i : Invoke)
  | pushMacro (mi : MacroInvoke)

/-- Apply one operation to the global state. -/
def applyOp (s : GlobalState) : GlobalOp → GlobalState
  | .allocTypeParam => (countTypeParam s).2
  | .allocLifetime => (countLifetime s).2
  | .clearArenas => clear s
  | .pushValue v => ⟨s.values ++ [v], s.invokes, s.macros, s.type_params, s.lifetimes⟩
  | .pushInvoke i => ⟨s.values, s.invokes ++ [i], s.macros, s.type_params, s.lifetimes⟩
  | .pushMacro mi => ⟨s.values, s.invokes, s.macros ++ [mi], s.type_params, s.lifetimes⟩

/-- Run a sequence of operations. -/
def runOps (s : GlobalState) (ops : List GlobalOp) : GlobalState :=
  ops.foldl applyOp s

/-- The generic-parameter identities allocated while running `ops`
from `s`, in order. -/
def allocatedTypeParams (s : GlobalState) : List GlobalOp → List Nat
  | [] => []
  | .allocTypeParam :: rest =>
    s.type_params :: allocatedTypeParams (applyOp s .allocTypeParam) rest
  | op :: rest => allocatedTypeParams (applyOp s op) rest

/-- The lifetime identities allocated while running `ops` from `s`, in
order. -/
def allocatedLifetimes (s : GlobalState) : List GlobalOp → List Nat
  | [] => []
  | .allocLifetime :: rest =>
    s.lifetimes :: allocatedLifetimes (applyOp s .allocLifetime) rest
  | op :: rest => allocatedLifetimes (applyOp s op) rest

/-- A sequence of `insert_as_equal_to` calls, as performed by the
driver: stop at the first panic. -/
def runInserts (tes : TypeEqualitySets) (ps : List (TypeNode × TypeNode))
    (cs : ConstraintSet) : Option (TypeEqualitySets × ConstraintSet) :=
  match ps with
  | [] => Option.some (tes, cs)
  | (t1, t2) :: rest =>
    match tes.insert_as_equal_to t1 t2 cs with
    | Option.none => Option.none
    | Option.some (tes1, cs1) => runInserts tes1 rest cs1

/-- Sample generic-variable types used in concrete evaluations. -/
def tpA : TypeNode := .TypeParam 0

/-- Second sample generic-variable type. -/
def tpB : TypeNode := .TypeParam 1

/-- A state with a single equality set `{tpA, tpB}`, both types mapped
to handle 0 — the state produced by one `insert_as_equal_to(tpA, tpB)`
call. -/
def pairState : TypeEqualitySets :=
  ⟨fun t => if t = tpA ∨ t = tpB then Option.some 0 else Option.none, [⟨[tpA, tpB]⟩]⟩

/-- C1.  For the TypeEqualitySets union-find structure the claimed
invariant — every Type with a `set_map` entry appears in the membership
of exactly one equality set and its entry points at a set that contains
it — is violated by the code: starting from the empty structure, the
two-call sequence `insert_as_equal_to(T0, T1); insert_as_equal_to(T0,
T1)` leaves `T0` mapped to handle 0 while every backing set is empty,
because the `(Some, Some)` merge branch overwrites the surviving set
with an empty set when the two handles coincide
(`trait_inference.rs` lines 205-206 with `set_ref1 == set_ref2`). -/
theorem C1_insert_twice_breaks_invariant :
    (runInserts TypeEqualitySets.new [(tpA, tpB), (tpA, tpB)] ⟨[]⟩).map
      (fun p => (p.1.set_map tpA, p.1.set_map tpB, p.1.sets.map TypeEqualitySet.set))
      = Option.some (Option.some 0, Option.some 0, [[]]) := by
  simp [runInserts, TypeEqualitySets.insert_as_equal_to,
    TypeEqualitySets.insert_inner_type_as_equal_to, record_outer, tpA, tpB,
    TypeEqualitySet.union, TypeEqualitySet.new, TypeEqualitySet.insert,
    TypeEqualitySets.new]

/-- C2.  Merging two Types that already belong to the same equality set
changes the partition's observable membership: in the state whose only
set is `{T0, T1}` (with both types mapped to handle 0), calling
`insert_as_equal_to(T0, T1, ...)` empties that set, because the merge
branch writes the union into `sets[set_ref1]` and then overwrites
`sets[set_ref2]` with an empty set without guarding against
`set_ref1 == set_ref2`. -/
theorem C2_merge_same_set_empties_partition :
    (pairState.set_map tpA = Option.some 0 ∧ pairState.set_map tpB = Option.some 0
      ∧ pairState.sets.map TypeEqualitySet.set = [[tpA, tpB]])
    ∧ (pairState.insert_as_equal_to tpA tpB ⟨[]⟩).map
        (fun p => (p.1.sets.map TypeEqualitySet.set, p.1.set_map tpA, p.2))
        = Option.some ([[]], Option.some 0, (⟨[]⟩ : ConstraintSet)) := by
  constructor
  · refine ⟨by simp [pairState], by simp [pairState], by simp [pairState]⟩
  · simp [TypeEqualitySets.insert_as_equal_to, TypeEqualitySets.insert_inner_type_as_equal_to,
      record_outer, pairState, tpA, tpB, TypeEqualitySet.union, TypeEqualitySet.new]

/-- Discriminates the trait-object constructor. -/
def TypeNode.isTraitObject : TypeNode → Bool
  | .TraitObject _ => true
  | _ => false

/-- C3.  When exactly one side of `insert_as_equal_to` is a
trait-object bound list, the call inserts one conformance constraint —
bounded type = the non-trait-object side, bounds = the trait object's
bound list, no higher-ranked lifetimes — and returns with the equality
partition completely unchanged (`trait_inference.rs` lines 160-175). -/
theorem C3_trait_object_one_sided (tes : TypeEqualitySets)
    (bounds : List TypeParamBound) (t : TypeNode) (cs : ConstraintSet)
    (h : t.isTraitObject = false) :
    tes.insert_as_equal_to (.TraitObject bounds) t cs
        = Option.some (tes, cs.insert (.Type' ⟨[], t, bounds⟩))
      ∧ tes.insert_as_equal_to t (.TraitObject bounds) cs
        = Option.some (tes, cs.insert (.Type' ⟨[], t, bounds⟩)) := by
  constructor <;>
    (cases t <;> simp_all [TypeNode.isTraitObject, TypeEqualitySets.insert_as_equal_to])

/-- Witness for C3 at a concrete input: unifying `dyn ∅` with the
type parameter `T0` only inserts the constraint `T0: ∅`. -/
theorem C3_trait_object_one_sided_witness :
    tpA.isTraitObject = false
      ∧ TypeEqualitySets.new.insert_as_equal_to (.TraitObject []) tpA ⟨[]⟩
          = Option.some (TypeEqualitySets.new,
              ConstraintSet.insert ⟨[]⟩ (.Type' ⟨[], tpA, []⟩)) :=
  ⟨by decide, (C3_trait_object_one_sided TypeEqualitySets.new [] tpA ⟨[]⟩ (by decide)).1⟩

/-- Sample type parameter `T7`. -/
def t7 : TypeNode := .TypeParam 7

/-- An immutable reference to `T7`. -/
def refT7 : TypeNode := .Reference Option.none t7

/-- A mutable reference to `&T7`. -/
def rmRefT7 : TypeNode := .ReferenceMut Option.none refT7

/-- C4 counterexample.  The claim "the two whole reference types are
never merged into a common equality set (the call adds neither outer
type to the partition)" is false at a concrete input: starting from
empty, first unify `T7` with `&mut &T7` (a plain outer equality), then
call `insert_as_equal_to(&T7, &mut &T7)`.  The second call recurses on
the inner types `T7` and `&T7`, which inserts `&T7` — the whole
immutable-reference argument — into the set already containing
`&mut &T7`: afterwards both outer reference types are members of the
same equality set (handle 0). -/
theorem C4_counterexample :
    (runInserts TypeEqualitySets.new [(t7, rmRefT7), (refT7, rmRefT7)] ⟨[]⟩).map
      (fun p => (p.1.sets.map TypeEqualitySet.set, p.1.set_map refT7, p.1.set_map rmRefT7))
      = Option.some ([[rmRefT7, t7, refT7]], Option.some 0, Option.some 0) := by
  simp [runInserts, TypeEqualitySets.insert_as_equal_to,
    TypeEqualitySets.insert_inner_type_as_equal_to, record_outer, t7, refT7, rmRefT7,
    TypeEqualitySet.union, TypeEqualitySet.new, TypeEqualitySet.insert,
    TypeEqualitySets.new]

/-- C4 (amended).  A reference/mutable-reference pair, in either order,
is handled exactly as a direct `insert_as_equal_to` call on the two
inner types: the case itself records no equality between the two outer
reference types (they can still enter the partition only insofar as
they occur among the unified inner subterms, as the counterexample
shows).  (`trait_inference.rs` lines 176-191.) -/
theorem C4_reference_pair_unifies_inner (tes : TypeEqualitySets)
    (l1 l2 : Option Nat) (i1 i2 : TypeNode) (cs : ConstraintSet) :
    tes.insert_as_equal_to (.Reference l1 i1) (.ReferenceMut l2 i2) cs
        = tes.insert_as_equal_to i1 i2 cs
      ∧ tes.insert_as_equal_to (.ReferenceMut l1 i1) (.Reference l2 i2) cs
        = tes.insert_as_equal_to i1 i2 cs := by
  constructor
  · conv_lhs => rw [TypeEqualitySets.insert_as_equal_to.eq_def]
  · conv_lhs => rw [TypeEqualitySets.insert_as_equal_to.eq_def]

/-- Constructor discriminant, used to state shape mismatch. -/
def TypeNode.headIdx : TypeNode → Nat
  | .Infer => 0
  | .PrimitiveStr => 1
  | .Tuple _ => 2
  | .Reference _ _ => 3
  | .ReferenceMut _ _ => 4
  | .Path _ => 5
  | .TypeParam _ => 6
  | .TraitObject _ => 7

/-- Two types have mismatched shapes in the sense of C5 (amended):
different head constructors, neither a trait object, and not a
reference/mutable-reference pairing. -/
def mismatchedShape (t1 t2 : TypeNode) : Prop :=
  t1.headIdx ≠ t2.headIdx
    ∧ t1.headIdx ≠ 7 ∧ t2.headIdx ≠ 7
    ∧ ¬(t1.headIdx = 3 ∧ t2.headIdx = 4)
    ∧ ¬(t1.headIdx = 4 ∧ t2.headIdx = 3)

/-- C5 counterexample.  The claim includes "tuples of different arity"
among the mismatched shapes that only record the outer equality, but
two tuples of different arity panic
(`trait_inference.rs` line 244): at a concrete input the call aborts
instead of recording anything. -/
theorem C5_counterexample :
    TypeEqualitySets.new.insert_as_equal_to (.Tuple []) (.Tuple [tpA]) ⟨[]⟩
      = Option.none := by
  simp [TypeEqualitySets.insert_as_equal_to, TypeEqualitySets.insert_inner_type_as_equal_to]

/-- C5 (amended).  For two types of mismatched head constructors —
neither side a trait object and not a reference/mutable-reference
pairing; tuples of unequal arity are excluded, as they panic —
`insert_as_equal_to` records only the outer equality of the two whole
types in the partition (the final `set_map` match of
`trait_inference.rs` lines 195-224), emits no constraint and performs
no inner unification. -/
theorem C5_mismatched_shapes_outer_only (tes : TypeEqualitySets)
    (t1 t2 : TypeNode) (cs : ConstraintSet) (h : mismatchedShape t1 t2) :
    tes.insert_as_equal_to t1 t2 cs =
      match record_outer tes t1 t2 with
      | Option.none => Option.none
      | Option.some tes2 => Option.some (tes2, cs) := by
  revert h
  cases t1 <;> cases t2 <;> intro h <;>
    obtain ⟨hneq, hto1, hto2, hrm1, hrm2⟩ := h <;>
    first
      | (simp [TypeNode.headIdx] at hneq hto1 hto2 hrm1 hrm2
         done)
      | simp [TypeEqualitySets.insert_as_equal_to,
          TypeEqualitySets.insert_inner_type_as_equal_to]

/-- Witness for C5 (amended) at a concrete input: a string-literal
type against an empty tuple. -/
theorem C5_mismatched_shapes_outer_only_witness :
    mismatchedShape .PrimitiveStr (.Tuple [])
      ∧ TypeEqualitySets.new.insert_as_equal_to .PrimitiveStr (.Tuple []) ⟨[]⟩ =
          match record_outer TypeEqualitySets.new .PrimitiveStr (.Tuple []) with
          | Option.none => Option.none
          | Option.some tes2 => Option.some (tes2, (⟨[]⟩ : ConstraintSet)) :=
  ⟨by constructor <;> simp [TypeNode.headIdx],
    C5_mismatched_shapes_outer_only TypeEqualitySets.new .PrimitiveStr (.Tuple []) ⟨[]⟩
      (by constructor <;> simp [TypeNode.headIdx])⟩

/-- The path type `Vec<T0>`, used in the self-referential example. -/
def vecT0 : TypeNode := .Path ⟨false, [⟨"Vec", .angleBracketed ⟨⟨[.type tpA]⟩⟩⟩]⟩

/-- The path type `Vec<_>` with the inference placeholder argument. -/
def vecInfer : TypeNode := .Path ⟨false, [⟨"Vec", .angleBracketed ⟨⟨[.type .Infer]⟩⟩⟩]⟩

/-- A self-referential equality state: the single set `{T0, Vec<T0>}`
whose member `Vec<T0>` has an immediate component (`T0`) in the same
set. -/
def selfRefTes : TypeEqualitySets :=
  ⟨fun t => if t = tpA ∨ t = vecT0 then Option.some 0 else Option.none,
   [⟨[tpA, vecT0]⟩]⟩

/-- A state whose single non-empty set holds two pairwise-incompatible
members (an empty tuple and a type parameter is not one of the
compatible pairings of `make_most_concrete_from_pair`). -/
def incompatibleTes : TypeEqualitySets :=
  ⟨fun t => if t = .Tuple [] ∨ t = tpA then Option.some 0 else Option.none,
   [⟨[.Tuple [], tpA]⟩]⟩

/-- A state with one tombstoned (empty) backing set, as left behind for
the absorbed handle after a merge. -/
def tombstonedTes : TypeEqualitySets := ⟨fun _ => Option.none, [⟨[]⟩]⟩

/-- The memoization map caching handle 0 at the placeholder. -/
def seededMap : MMap := fun r => if r = 0 then Option.some .Infer else Option.none

/-- C6 counterexample.  The claim says `make_most_concrete` "terminates
and returns a finite Type for every set handle whose backing set is
non-empty", but a non-empty backing set whose members are pairwise
incompatible (here `{(), T0}`) hits the
`make_most_concrete_from_pair` panic and returns no Type at all. -/
theorem C6_counterexample :
    TypeEqualitySetRef.make_most_concrete 0 (fun _ => Option.none) incompatibleTes
      = Option.none := by
  simp [TypeEqualitySetRef.make_most_concrete, mmcSetRefAux, mmcFoldAux, mmcPairAux,
    mmcInnerAux, mmcNodeAux, mbind, mpure, MMap.insert, incompatibleTes, tpA,
    TypeEqualitySets.get_set_ref]

/-- A cached handle short-circuits: `make_most_concrete` returns the
cached node and leaves the map untouched. -/
theorem mmcSetRefAux_cached (tes : TypeEqualitySets) (m : MMap)
    (ref : TypeEqualitySetRef) (v : TypeNode) (h : m ref = Option.some v) :
    mmcSetRefAux tes ref m = Option.some (v, ⟨m, MMap.dom_le_refl m⟩) := by
  rw [mmcSetRefAux.eq_def]
  split
  · rename_i node hcached
    have hv := hcached.symm.trans h
    injection hv with hv
    rw [hv]
  · rename_i hcached
    rw [h] at hcached
    exact absurd hcached (by simp)

/-- Whenever the synthesizer returns a node for a handle, the returned
memoization map caches the handle at exactly that node. -/
theorem mmcSetRefAux_writes_cache (tes : TypeEqualitySets) (m : MMap)
    (ref : TypeEqualitySetRef) (t : TypeNode)
    (m' : { mm : MMap // MMap.dom_le m mm })
    (h : mmcSetRefAux tes ref m = Option.some (t, m')) :
    m'.1 ref = Option.some t := by
  rw [mmcSetRefAux.eq_def] at h
  split at h
  · rename_i node hcached
    simp only [Option.some.injEq, Prod.mk.injEq] at h
    obtain ⟨h1, h2⟩ := h
    rw [← h2, ← h1]
    exact hcached
  · rename_i hcached
    split at h
    · exact absurd h (by simp)
    · rename_i eqset hset
      split at h
      · exact absurd h (by simp)
      · rename_i first rest hmem
        split at h
        · split at h
          · exact absurd h (by simp)
          · rename_i q hinner
            simp only [Option.some.injEq, Prod.mk.injEq] at h
            obtain ⟨h1, h2⟩ := h
            rw [← h2, ← h1]
            simp [MMap.insert]
        · split at h
          · exact absurd h (by simp)
          · rename_i q hfold
            simp only [Option.some.injEq, Prod.mk.injEq] at h
            obtain ⟨h1, h2⟩ := h
            rw [← h2, ← h1]
            simp [MMap.insert]

/-- An uncached handle whose backing set is empty panics at the
first-member extraction. -/
theorem mmcSetRefAux_empty_panics (tes : TypeEqualitySets) (m : MMap)
    (ref : TypeEqualitySetRef) (eqset : TypeEqualitySet)
    (h1 : m ref = Option.none) (h2 : tes.sets.get? ref = Option.some eqset)
    (h3 : eqset.set = []) :
    mmcSetRefAux tes ref m = Option.none := by
  rw [mmcSetRefAux.eq_def]
  split
  · rename_i node hcached
    rw [h1] at hcached
    exact absurd hcached (by simp)
  · split
    · rfl
    · rename_i eqset2 hset
      have he := hset.symm.trans h2
      injection he with he
      subst he
      split
      · rfl
      · rename_i first rest hmem
        rw [h3] at hmem
        exact absurd hmem (by simp)

/-- C6 (amended).  `make_most_concrete` always terminates; a cached
handle short-circuits to the cached node (so a recursive lookup of a
handle during its own computation returns the pre-seeded inference
placeholder); and whenever the call returns a type — that is, whenever
the member fold does not hit the incompatible-members panic — the
returned memoization map has the handle cached at exactly the returned
type, the placeholder having been overwritten, so a later read returns
the computed result (`trait_inference.rs` lines 77-117). -/
theorem C6_make_most_concrete_cache_protocol (tes : TypeEqualitySets) (m : MMap)
    (ref : TypeEqualitySetRef) :
    (∀ v, m ref = Option.some v →
        TypeEqualitySetRef.make_most_concrete ref m tes = Option.some (v, m))
      ∧ (∀ t m', TypeEqualitySetRef.make_most_concrete ref m tes = Option.some (t, m') →
          m' ref = Option.some t) := by
  constructor
  · intro v h
    unfold TypeEqualitySetRef.make_most_concrete
    rw [mmcSetRefAux_cached tes m ref v h]
    rfl
  · intro t m' h
    unfold TypeEqualitySetRef.make_most_concrete at h
    cases haux : mmcSetRefAux tes ref m with
    | none => rw [haux] at h; exact absurd h (by simp)
    | some q =>
      rw [haux] at h
      simp only [Option.map, Option.some.injEq, Prod.mk.injEq] at h
      obtain ⟨h1, h2⟩ := h
      rw [← h2, ← h1]
      exact mmcSetRefAux_writes_cache tes m ref q.1 q.2 (by rw [haux])

/-- Witness for C6 at the self-referential set `{T0, Vec<T0>}`: a
cached lookup returns the pre-seeded placeholder, and running the
synthesizer on the set from an empty cache terminates with a finite
type that is cached for the handle. -/
theorem C6_make_most_concrete_cache_protocol_witness :
    (TypeEqualitySetRef.make_most_concrete 0 seededMap selfRefTes
        = Option.some (.Infer, seededMap))
      ∧ ∃ t m', TypeEqualitySetRef.make_most_concrete 0 (fun _ => Option.none) selfRefTes
          = Option.some (t, m') ∧ m' 0 = Option.some t := by
  constructor
  · exact (C6_make_most_concrete_cache_protocol selfRefTes seededMap 0).1 .Infer rfl
  · have heval : (TypeEqualitySetRef.make_most_concrete 0 (fun _ => Option.none)
        selfRefTes).map Prod.fst = Option.some vecInfer := by
      simp [TypeEqualitySetRef.make_most_concrete, mmcSetRefAux, mmcFoldAux, mmcPairAux,
        mmcInnerAux, mmcNodeAux, mmcPathInnerAux, mmcArgListAux, mbind, mpure,
        MMap.insert, selfRefTes, tpA, vecT0, vecInfer, TypeEqualitySets.get_set_ref,
        Path.setLastArgs]
    cases h : TypeEqualitySetRef.make_most_concrete 0 (fun _ => Option.none) selfRefTes with
    | none => rw [h] at heval; simp at heval
    | some p =>
      exact ⟨p.1, p.2,
        ⟨by simp [h],
         (C6_make_most_concrete_cache_protocol selfRefTes (fun _ => Option.none) 0).2
           p.1 p.2 (by simp [h])⟩⟩

/-- C9.  `make_most_concrete` panics when invoked with a set handle
whose backing equality set is empty (a handle tombstoned by a merge)
and that has no cached entry: the first-member extraction
(`iterator.next().unwrap()`, `trait_inference.rs` line 100) fails on
the empty set.  With a cached entry the call returns the cached node
without ever touching the backing set, so no panic occurs even for a
tombstoned handle. -/
theorem C9_make_most_concrete_empty_set_panics (tes : TypeEqualitySets) (m : MMap)
    (ref : TypeEqualitySetRef) :
    (∀ eqset, m ref = Option.none → tes.sets.get? ref = Option.some eqset →
        eqset.set = [] →
        TypeEqualitySetRef.make_most_concrete ref m tes = Option.none)
      ∧ (∀ v, m ref = Option.some v →
        TypeEqualitySetRef.make_most_concrete ref m tes = Option.some (v, m)) := by
  constructor
  · intro eqset h1 h2 h3
    unfold TypeEqualitySetRef.make_most_concrete
    rw [mmcSetRefAux_empty_panics tes m ref eqset h1 h2 h3]
    rfl
  · intro v h
    unfold TypeEqualitySetRef.make_most_concrete
    rw [mmcSetRefAux_cached tes m ref v h]
    rfl

/-- Witness for C9: the tombstoned state with one empty set panics on
an uncached lookup of handle 0, and returns the cached placeholder when
the handle is cached. -/
theorem C9_make_most_concrete_empty_set_panics_witness :
    (TypeEqualitySetRef.make_most_concrete 0 (fun _ => Option.none) tombstonedTes
        = Option.none)
      ∧ (TypeEqualitySetRef.make_most_concrete 0 seededMap tombstonedTes
        = Option.some (.Infer, seededMap)) :=
  ⟨(C9_make_most_concrete_empty_set_panics tombstonedTes (fun _ => Option.none) 0).1
      ⟨[]⟩ rfl rfl rfl,
   (C9_make_most_concrete_empty_set_panics tombstonedTes seededMap 0).2 .Infer rfl⟩

/-- The path `Tr<str>`: a trait bound carrying the concrete
string-literal type as its argument. -/
def trStrPath : Path := ⟨false, [⟨"Tr", .angleBracketed ⟨⟨[.type .PrimitiveStr]⟩⟩⟩]⟩

/-- The constraint `T0: Tr<str>`. -/
def c7Constraint : GenericConstraint := .Type' ⟨[], tpA, [.trait ⟨[], trStrPath⟩]⟩

/-- A state whose single set `{T0}` holds the bounded type of
`c7Constraint`. -/
def c7Tes : TypeEqualitySets :=
  ⟨fun t => if t = tpA then Option.some 0 else Option.none, [⟨[tpA]⟩]⟩

/-- C7 counterexample.  The claim says a conformance constraint whose
bounded type resolves to a generic variable in a relevant set is
retained, but `T0: Tr<str>` — with `T0`'s set (handle 0) relevant — is
dropped: `is_relevant_for_constraint` also requires every type
argument of every bound's path to be relevant, and the concrete `str`
argument is not. -/
theorem C7_counterexample :
    (c7Tes.get_set_ref tpA = Option.some 0 ∧ (0 : TypeEqualitySetRef) ∈ ({0} : Finset TypeEqualitySetRef))
      ∧ (c7Constraint.make_relevant (fun _ => Option.none) c7Tes {0}).map Prod.fst
        = Option.some Option.none := by
  refine ⟨⟨by simp [c7Tes, TypeEqualitySets.get_set_ref], by simp⟩, ?_⟩
  simp [GenericConstraint.make_relevant, GenericConstraint.make_most_concrete,
    PredicateType.make_most_concrete, TypeNode.make_most_concrete, makeBoundsMostConcrete,
    TypeParamBound.make_most_concrete_inner, Path.make_most_concrete_inner,
    TypeEqualitySetRef.make_most_concrete, mmcSetRefAux, mmcFoldAux, mmcPairAux,
    mmcInnerAux, mmcNodeAux, mmcPathInnerAux, mmcArgListAux, mbind, mpure, MMap.insert,
    c7Tes, c7Constraint, tpA, trStrPath, TypeEqualitySets.get_set_ref, Path.setLastArgs,
    GenericConstraint.is_relevant, PredicateType.is_relevant_for_constraint,
    TypeNode.is_relevant_for_constraint, TypeParamBound.is_relevant_for_constraint,
    Path.is_relevant_for_constraint]

/-- A type that cannot be relevant for a constraint: not a generic
variable, even behind chains of references. -/
def TypeNode.isGenericShape : TypeNode → Bool
  | .TypeParam _ => true
  | .Reference _ inner => inner.isGenericShape
  | .ReferenceMut _ inner => inner.isGenericShape
  | _ => false

/-- A type that is not a generic-variable shape is never relevant. -/
theorem isGenericShape_false_not_relevant :
    ∀ (t : TypeNode) (tes : TypeEqualitySets) (rel : Finset TypeEqualitySetRef),
      t.isGenericShape = false → t.is_relevant_for_constraint tes rel = false
  | .Infer, _, _, _ => rfl
  | .PrimitiveStr, _, _, _ => rfl
  | .Tuple _, _, _, _ => rfl
  | .Path _, _, _, _ => rfl
  | .TraitObject _, _, _, _ => rfl
  | .TypeParam _, _, _, h => by simp [TypeNode.isGenericShape] at h
  | .Reference l inner, tes, rel, h => by
    simp only [TypeNode.isGenericShape] at h
    simp only [TypeNode.is_relevant_for_constraint]
    exact isGenericShape_false_not_relevant inner tes rel h
  | .ReferenceMut l inner, tes, rel, h => by
    simp only [TypeNode.isGenericShape] at h
    simp only [TypeNode.is_relevant_for_constraint]
    exact isGenericShape_false_not_relevant inner tes rel h
  termination_by structural t => t

/-- C7 (amended).  After resolving a conformance constraint to its most
concrete form: if the bounded type is not a generic-variable shape (in
particular, if it is fully concrete like the string-literal type) the
constraint is dropped (`make_relevant` returns the source's `None`);
if the bounded type is a generic variable whose equality set is among
the relevant generic-parameter sets **and** every bound in the resolved
constraint is itself relevant (for example bounds without type
arguments), the constraint is retained in most-concrete form
(`trait_inference.rs` lines 518-545, 605-629). -/
theorem C7_make_relevant_filter (m : MMap) (tes : TypeEqualitySets)
    (relevant : Finset TypeEqualitySetRef) (pt pt' : PredicateType) (m' : MMap)
    (h : pt.make_most_concrete m tes = Option.some (pt', m')) :
    (pt'.bounded_ty.isGenericShape = false →
        (GenericConstraint.Type' pt).make_relevant m tes relevant
          = Option.some (Option.none, m'))
      ∧ (∀ p r, pt'.bounded_ty = .TypeParam p →
          tes.get_set_ref (.TypeParam p) = Option.some r → r ∈ relevant →
          pt'.bounds.all
              (fun bound => bound.is_relevant_for_constraint tes relevant) = true →
          (GenericConstraint.Type' pt).make_relevant m tes relevant
            = Option.some (Option.some (.Type' pt'), m')) := by
  constructor
  · intro hshape
    simp only [GenericConstraint.make_relevant, GenericConstraint.make_most_concrete, h]
    simp [GenericConstraint.is_relevant, PredicateType.is_relevant_for_constraint,
      isGenericShape_false_not_relevant pt'.bounded_ty tes relevant hshape]
  · intro p r hbty hset hrel hbounds
    simp only [GenericConstraint.make_relevant, GenericConstraint.make_most_concrete, h]
    simp [GenericConstraint.is_relevant, PredicateType.is_relevant_for_constraint,
      hbty, TypeNode.is_relevant_for_constraint, hset, hrel, hbounds]

/-- The concrete constraint `str: ∅` (bounded type fully concrete). -/
def ptStr : PredicateType := ⟨[], .PrimitiveStr, []⟩

/-- The concrete constraint `T0: ∅` (bounded type a generic variable,
no bounds). -/
def ptT0 : PredicateType := ⟨[], tpA, []⟩

/-- Witness for C7: with the set `{T0}` relevant, the constraint on the
concrete string-literal type is dropped and the constraint on `T0` is
retained. -/
theorem C7_make_relevant_filter_witness :
    (∃ m', (GenericConstraint.Type' ptStr).make_relevant (fun _ => Option.none) c7Tes {0}
        = Option.some (Option.none, m'))
      ∧ ∃ m', (GenericConstraint.Type' ptT0).make_relevant (fun _ => Option.none) c7Tes {0}
        = Option.some (Option.some (.Type' ptT0), m') := by
  constructor
  · have heval : (ptStr.make_most_concrete (fun _ => Option.none) c7Tes).map Prod.fst
        = Option.some ptStr := by
      simp [ptStr, PredicateType.make_most_concrete, TypeNode.make_most_concrete,
        makeBoundsMostConcrete, mmcNodeAux, c7Tes, tpA, TypeEqualitySets.get_set_ref]
    cases h : ptStr.make_most_concrete (fun _ => Option.none) c7Tes with
    | none => rw [h] at heval; simp at heval
    | some q =>
      rw [h] at heval
      simp only [Option.map, Option.some.injEq] at heval
      refine ⟨q.2, ?_⟩
      have := (C7_make_relevant_filter (fun _ => Option.none) c7Tes {0} ptStr q.1 q.2
        (by rw [h])).1 (by rw [heval]; decide)
      simpa [heval] using this
  · have heval : (ptT0.make_most_concrete (fun _ => Option.none) c7Tes).map Prod.fst
        = Option.some ptT0 := by
      simp [ptT0, PredicateType.make_most_concrete, TypeNode.make_most_concrete,
        makeBoundsMostConcrete, mmcNodeAux, mmcSetRefAux, mmcInnerAux, mbind, mpure,
        MMap.insert, c7Tes, tpA, TypeEqualitySets.get_set_ref]
    cases h : ptT0.make_most_concrete (fun _ => Option.none) c7Tes with
    | none => rw [h] at heval; simp at heval
    | some q =>
      rw [h] at heval
      simp only [Option.map, Option.some.injEq] at heval
      refine ⟨q.2, ?_⟩
      have := (C7_make_relevant_filter (fun _ => Option.none) c7Tes {0} ptT0 q.1 q.2
        (by rw [h])).2 0 0 (by rw [heval]; rfl)
        (by simp [c7Tes, TypeEqualitySets.get_set_ref, tpA]) (by simp)
        (by rw [heval]; rfl)
      rw [heval] at this
      simpa using this

/-- C8 counterexample.  The claim says every `ValueNode` variant's
`get_type` returns a Type without panicking, but the `DataStructure`
variant (like `Dereference` and `MacroInvocation`) hits the
`node => panic!("ValueNode::get_type")` arm (`node.rs` line 55). -/
theorem C8_counterexample :
    ValueNode.get_type [] [] 0 (.DataStructure ("S") []) = Option.none
      ∧ ValueNode.get_type [] [] 0 (.Dereference 0) = Option.none
      ∧ ValueNode.get_type [] [] 0 (.MacroInvocation 0) = Option.none := by
  refine ⟨?_, ?_, ?_⟩ <;> simp [ValueNode.get_type]

/-- C8 (amended).  For the `Binding`, `Destructure`, `Str`, `Tuple`,
`Reference` and `Invoke` variants, `get_type` derives a Type as
described: bindings and destructures return their stored declared
Type, a string literal returns the string-literal type, a tuple
returns the tuple of its components' derived types, a reference wraps
the referenced value's derived type with the recorded mutability, and
an invocation result returns the invoked function's declared return
type looked up in the invocation arena.  The remaining variants
(`Dereference`, `DataStructure`, `MacroInvocation`) panic
(`node.rs` lines 34-57). -/
theorem C8_get_type_variants (values : List ValueNode) (invokes : List Invoke)
    (b : Nat) :
    (∀ name ty, ValueNode.get_type values invokes b (.Binding name ty) = Option.some ty)
      ∧ (∀ parent acc ty,
          ValueNode.get_type values invokes b (.Destructure parent acc ty) = Option.some ty)
      ∧ (∀ s, ValueNode.get_type values invokes b (.Str s) = Option.some .PrimitiveStr)
      ∧ (∀ refs ts, getTypeList values invokes b refs = Option.some ts →
          ValueNode.get_type values invokes b (.Tuple refs) = Option.some (.Tuple ts))
      ∧ (∀ r rs t ts, r < b → ValueRef.get_type values invokes r = Option.some t →
          getTypeList values invokes b rs = Option.some ts →
          getTypeList values invokes b (r :: rs) = Option.some (t :: ts))
      ∧ (∀ is_mut v inner, v < b →
          ValueRef.get_type values invokes v = Option.some inner →
          ValueNode.get_type values invokes b (.Reference is_mut v)
            = Option.some
                (if is_mut then .ReferenceMut Option.none inner
                 else .Reference Option.none inner))
      ∧ (∀ i invoke, invokes.get? i = Option.some invoke →
          ValueNode.get_type values invokes b (.Invoke i)
            = Option.some invoke.function.sig.output) := by
  refine ⟨?_, ?_, ?_, ?_, ?_, ?_, ?_⟩
  · intro name ty; simp [ValueNode.get_type]
  · intro parent acc ty; simp [ValueNode.get_type]
  · intro s; simp [ValueNode.get_type]
  · intro refs ts h; simp [ValueNode.get_type, h]
  · intro r rs t ts hr ht hts; simp [getTypeList, hr, ht, hts]
  · intro is_mut v inner hv hinner; simp [ValueNode.get_type, hv, hinner]
  · intro i invoke h
    rw [List.get?_eq_getElem?] at h
    simp [ValueNode.get_type, h]

/-- A sample invocation record whose function declares return type
`str`. -/
def strInvoke : Invoke := ⟨⟨Option.none, ⟨.NoSelf, [], .PrimitiveStr⟩⟩, []⟩

/-- Witness for C8 at concrete inputs: an arena with one string value
and one invocation returning `str`. -/
theorem C8_get_type_variants_witness :
    (ValueNode.get_type [.Str ("x")] [strInvoke] 1 (.Binding ("v") tpA)
        = Option.some tpA)
      ∧ (ValueNode.get_type [.Str ("x")] [strInvoke] 1 (.Tuple [0])
          = Option.some (.Tuple [.PrimitiveStr]))
      ∧ (ValueNode.get_type [.Str ("x")] [strInvoke] 1 (.Reference true 0)
          = Option.some (.ReferenceMut Option.none .PrimitiveStr))
      ∧ (ValueNode.get_type [.Str ("x")] [strInvoke] 1 (.Invoke 0)
          = Option.some .PrimitiveStr) := by
  have base : ValueRef.get_type [ValueNode.Str ("x")] [strInvoke] 0
      = Option.some .PrimitiveStr := by
    simp [ValueRef.get_type, ValueNode.get_type]
  have hc := C8_get_type_variants [ValueNode.Str ("x")] [strInvoke] 1
  refine ⟨hc.1 ("v") tpA, ?_, ?_, ?_⟩
  · exact hc.2.2.2.1 [0] [.PrimitiveStr]
      (hc.2.2.2.2.1 0 [] .PrimitiveStr [] (by decide) base (by simp [getTypeList]))
  · exact hc.2.2.2.2.2.1 true 0 .PrimitiveStr (by decide) base
  · exact hc.2.2.2.2.2.2 0 strInvoke rfl

/-- Counter monotonicity of a single operation. -/
theorem applyOp_tp_le (s : GlobalState) (op : GlobalOp) :
    s.type_params ≤ (applyOp s op).type_params := by
  cases op <;> simp [applyOp, countTypeParam, countLifetime, clear]

/-- Counter monotonicity of a single operation (lifetimes). -/
theorem applyOp_lt_le (s : GlobalState) (op : GlobalOp) :
    s.lifetimes ≤ (applyOp s op).lifetimes := by
  cases op <;> simp [applyOp, countTypeParam, countLifetime, clear]

/-- Counter monotonicity of an operation sequence. -/
theorem runOps_tp_le : ∀ (ops : List GlobalOp) (s : GlobalState),
    s.type_params ≤ (runOps s ops).type_params
  | [], s => le_refl _
  | op :: rest, s =>
    le_trans (applyOp_tp_le s op) (runOps_tp_le rest (applyOp s op))

/-- Counter monotonicity of an operation sequence (lifetimes). -/
theorem runOps_lt_le : ∀ (ops : List GlobalOp) (s : GlobalState),
    s.lifetimes ≤ (runOps s ops).lifetimes
  | [], s => le_refl _
  | op :: rest, s =>
    le_trans (applyOp_lt_le s op) (runOps_lt_le rest (applyOp s op))

/-- Every allocated generic-parameter identity is below the final
counter value. -/
theorem allocatedTypeParams_lt :
    ∀ (ops : List GlobalOp) (s : GlobalState) (i : Nat),
      i ∈ allocatedTypeParams s ops → i < (runOps s ops).type_params := by
  intro ops
  induction ops with
  | nil => intro s i h; simp [allocatedTypeParams] at h
  | cons op rest ih =>
    intro s i h
    cases op with
    | allocTypeParam =>
      simp only [allocatedTypeParams, List.mem_cons] at h
      rcases h with h | h
      · subst h
        calc s.type_params < (applyOp s .allocTypeParam).type_params := by
              simp [applyOp, countTypeParam]
          _ ≤ (runOps (applyOp s .allocTypeParam) rest).type_params :=
              runOps_tp_le rest _
      · exact ih (applyOp s .allocTypeParam) i h
    | allocLifetime => exact ih _ i h
    | clearArenas => exact ih _ i h
    | pushValue v => exact ih _ i h
    | pushInvoke iv => exact ih _ i h
    | pushMacro mi => exact ih _ i h

/-- Every allocated lifetime identity is below the final counter
value. -/
theorem allocatedLifetimes_lt :
    ∀ (ops : List GlobalOp) (s : GlobalState) (i : Nat),
      i ∈ allocatedLifetimes s ops → i < (runOps s ops).lifetimes := by
  intro ops
  induction ops with
  | nil => intro s i h; simp [allocatedLifetimes] at h
  | cons op rest ih =>
    intro s i h
    cases op with
    | allocLifetime =>
      simp only [allocatedLifetimes, List.mem_cons] at h
      rcases h with h | h
      · subst h
        calc s.lifetimes < (applyOp s .allocLifetime).lifetimes := by
              simp [applyOp, countLifetime]
          _ ≤ (runOps (applyOp s .allocLifetime) rest).lifetimes :=
              runOps_lt_le rest _
      · exact ih (applyOp s .allocLifetime) i h
    | allocTypeParam => exact ih _ i h
    | clearArenas => exact ih _ i h
    | pushValue v => exact ih _ i h
    | pushInvoke iv => exact ih _ i h
    | pushMacro mi => exact ih _ i h

/-- Every allocated generic-parameter identity is at least the initial
counter value. -/
theorem allocatedTypeParams_ge :
    ∀ (ops : List GlobalOp) (s : GlobalState) (i : Nat),
      i ∈ allocatedTypeParams s ops → s.type_params ≤ i := by
  intro ops
  induction ops with
  | nil => intro s i h; simp [allocatedTypeParams] at h
  | cons op rest ih =>
    intro s i h
    cases op with
    | allocTypeParam =>
      simp only [allocatedTypeParams, List.mem_cons] at h
      rcases h with h | h
      · exact le_of_eq h.symm
      · exact le_trans (applyOp_tp_le s _) (ih (applyOp s .allocTypeParam) i h)
    | allocLifetime => exact le_trans (applyOp_tp_le s _) (ih _ i h)
    | clearArenas => exact le_trans (applyOp_tp_le s _) (ih _ i h)
    | pushValue v => exact le_trans (applyOp_tp_le s _) (ih _ i h)
    | pushInvoke iv => exact le_trans (applyOp_tp_le s _) (ih _ i h)
    | pushMacro mi => exact le_trans (applyOp_tp_le s _) (ih _ i h)

/-- Every allocated lifetime identity is at least the initial counter
value. -/
theorem allocatedLifetimes_ge :
    ∀ (ops : List GlobalOp) (s : GlobalState) (i : Nat),
      i ∈ allocatedLifetimes s ops → s.lifetimes ≤ i := by
  intro ops
  induction ops with
  | nil => intro s i h; simp [allocatedLifetimes] at h
  | cons op rest ih =>
    intro s i h
    cases op with
    | allocLifetime =>
      simp only [allocatedLifetimes, List.mem_cons] at h
      rcases h with h | h
      · exact le_of_eq h.symm
      · exact le_trans (applyOp_lt_le s _) (ih (applyOp s .allocLifetime) i h)
    | allocTypeParam => exact le_trans (applyOp_lt_le s _) (ih _ i h)
    | clearArenas => exact le_trans (applyOp_lt_le s _) (ih _ i h)
    | pushValue v => exact le_trans (applyOp_lt_le s _) (ih _ i h)
    | pushInvoke iv => exact le_trans (applyOp_lt_le s _) (ih _ i h)
    | pushMacro mi => exact le_trans (applyOp_lt_le s _) (ih _ i h)

/-- C10.  `clear` empties the three arenas and changes nothing else —
the full resulting state is the empty arenas together with the
untouched `TYPE_PARAMS` and `LIFETIMES` counters — and, consequently,
every generic-parameter or lifetime identity allocated after a clear
is distinct from every identity of the same kind allocated before it
in the same thread (`global_data.rs` lines 82-89). -/
theorem C10_clear_preserves_counters (s : GlobalState) :
    clear s = ⟨[], [], [], s.type_params, s.lifetimes⟩
      ∧ (∀ ops1 ops2 i j, i ∈ allocatedTypeParams s ops1 →
          j ∈ allocatedTypeParams (clear (runOps s ops1)) ops2 → i ≠ j)
      ∧ (∀ ops1 ops2 i j, i ∈ allocatedLifetimes s ops1 →
          j ∈ allocatedLifetimes (clear (runOps s ops1)) ops2 → i ≠ j) := by
  refine ⟨rfl, ?_, ?_⟩
  · intro ops1 ops2 i j hi hj
    have h1 : i < (runOps s ops1).type_params := allocatedTypeParams_lt ops1 s i hi
    have h2 : (clear (runOps s ops1)).type_params ≤ j :=
      allocatedTypeParams_ge ops2 _ j hj
    have h3 : (clear (runOps s ops1)).type_params = (runOps s ops1).type_params := rfl
    omega
  · intro ops1 ops2 i j hi hj
    have h1 : i < (runOps s ops1).lifetimes := allocatedLifetimes_lt ops1 s i hi
    have h2 : (clear (runOps s ops1)).lifetimes ≤ j :=
      allocatedLifetimes_ge ops2 _ j hj
    have h3 : (clear (runOps s ops1)).lifetimes = (runOps s ops1).lifetimes := rfl
    omega

/-- Witness for C10 at a concrete trace: the identity allocated before
a clear (0) differs from the identity allocated after it (1), and
likewise for lifetimes (1 before, 2 after). -/
theorem C10_clear_preserves_counters_witness :
    (0 : Nat) ∈ allocatedTypeParams initialGlobalState [.allocTypeParam]
      ∧ (1 : Nat) ∈ allocatedTypeParams
          (clear (runOps initialGlobalState [.allocTypeParam])) [.allocTypeParam]
      ∧ (0 : Nat) ≠ 1
      ∧ (1 : Nat) ∈ allocatedLifetimes initialGlobalState [.allocLifetime]
      ∧ (2 : Nat) ∈ allocatedLifetimes
          (clear (runOps initialGlobalState [.allocLifetime])) [.allocLifetime]
      ∧ (1 : Nat) ≠ 2 := by
  refine ⟨?_, ?_, ?_, ?_, ?_, ?_⟩
  · decide
  · decide
  · exact (C10_clear_preserves_counters initialGlobalState).2.1
      [.allocTypeParam] [.allocTypeParam] 0 1 (by decide) (by decide)
  · decide
  · decide
  · exact (C10_clear_preserves_counters initialGlobalState).2.2
      [.allocLifetime] [.allocLifetime] 1 2 (by decide) (by decide)

end Reflect
